import Mathlib

/-!
# PINFL decoder (`script.js`): shallow embedding and verified properties

The embedding follows `script.js` function by function.

* JavaScript strings are Lean `String`s.  Every index computation of the script
  happens behind the test `/^\d{14}$/`, where all characters are ASCII digits, so
  code-unit positions and character positions coincide.
* A valid `Date` object is represented by its time value, the milliseconds since
  1970-01-01T00:00Z (`Int`); an invalid `Date` and the number `NaN` are `none`
  and `JSNum.nan`.  The constructor `new Date(y, m, d)` and the getters follow
  the abstract operations of the ECMAScript specification (`Day`,
  `DayFromYear`, `YearFromTime`, `MonthFromTime`, `DateFromTime`, `MakeDay`,
  `MakeDate`, `LocalTime`, `UTC`, `TimeClip`).
* The host time zone is a parameter `z : Zone`, given by the two offset
  functions `LocalTZA(t, true)` (at a UTC instant) and `LocalTZA(t, false)` (at
  a local time) of the ECMAScript specification.  A `Zone` keeps its offsets
  below 24 hours and gives to a date constructed for a local midnight the
  requested calendar day; this only leaves out a calendar day that a zone
  skipped entirely.
* The current instant `new Date()` is a parameter `now : Nat`, its time value.
* `(target - today) / 86400000` is a quotient of two integers below `2^53`
  whose integer part is at most a few hundred, so the rounding of the double
  division cannot cross an integer and `Math.ceil` of it is the exact ceiling
  of the rational quotient (`ceilDiv`, see `ceilDiv_eq_ceil`).
-/

namespace PINFL

/-! ## ECMAScript time arithmetic -/

/-- Milliseconds per day: `1000 * 60 * 60 * 24`. -/
def msPerDay : Int := 1000 * 60 * 60 * 24

/-- ECMAScript `Day(t) = floor(t / msPerDay)`. -/
def Day (t : Int) : Int := t / msPerDay

/-- ECMAScript `DaysInYear(y)`. -/
def DaysInYear (y : Int) : Int :=
  if y % 4 ≠ 0 then 365
  else if y % 100 ≠ 0 then 366
  else if y % 400 ≠ 0 then 365
  else 366

/-- ECMAScript `DayFromYear(y)`: day number of the first day of year `y`. -/
def DayFromYear (y : Int) : Int :=
  365 * (y - 1970) + (y - 1969) / 4 - (y - 1901) / 100 + (y - 1601) / 400

/-- ECMAScript `TimeFromYear(y)`. -/
def TimeFromYear (y : Int) : Int := msPerDay * DayFromYear y

/-- ECMAScript `YearFromTime(t)`: the largest `y` with `TimeFromYear(y) ≤ t`
(see `YearFromTime_isGreatest`).  It is computed from the estimate
`1970 + floor(400 * Day(t) / 146097)`, which is off by at most one. -/
def YearFromTime (t : Int) : Int :=
  let d := Day t
  let e := 1970 + (d * 400) / 146097
  if DayFromYear (e + 1) ≤ d then e + 1
  else if DayFromYear e ≤ d then e
  else e - 1

/-- The leap day of year `y`: 1 when `DaysInYear(y) = 366`, otherwise 0. -/
def leapDay (y : Int) : Int := if DaysInYear y = 366 then 1 else 0

/-- ECMAScript `InLeapYear(t)`, as the number 0 or 1. -/
def InLeapYear (t : Int) : Int := leapDay (YearFromTime t)

/-- ECMAScript `DayWithinYear(t)`. -/
def DayWithinYear (t : Int) : Int := Day t - DayFromYear (YearFromTime t)

/-- The table of `MonthFromTime`: the month (January is 0) of day `d` of a year
whose leap day is `l`. -/
def monthOfDay (d l : Int) : Int :=
  if d < 31 then 0
  else if d < 59 + l then 1
  else if d < 90 + l then 2
  else if d < 120 + l then 3
  else if d < 151 + l then 4
  else if d < 181 + l then 5
  else if d < 212 + l then 6
  else if d < 243 + l then 7
  else if d < 273 + l then 8
  else if d < 304 + l then 9
  else if d < 334 + l then 10
  else 11

/-- The table of `DateFromTime`: the day of the month (from 1) of day `d` of a
year whose leap day is `l`, given its month `m`. -/
def dateOfDay (d l m : Int) : Int :=
  if m = 0 then d + 1
  else if m = 1 then d - 30
  else if m = 2 then d - 58 - l
  else if m = 3 then d - 89 - l
  else if m = 4 then d - 119 - l
  else if m = 5 then d - 150 - l
  else if m = 6 then d - 180 - l
  else if m = 7 then d - 211 - l
  else if m = 8 then d - 242 - l
  else if m = 9 then d - 272 - l
  else if m = 10 then d - 303 - l
  else d - 333 - l

/-- ECMAScript `MonthFromTime(t)`, January is 0. -/
def MonthFromTime (t : Int) : Int := monthOfDay (DayWithinYear t) (InLeapYear t)

/-- ECMAScript `DateFromTime(t)`: the day of the month, from 1. -/
def DateFromTime (t : Int) : Int :=
  dateOfDay (DayWithinYear t) (InLeapYear t) (MonthFromTime t)

/-- Number of days before the first day of month `mn` (0 to 11) in a year whose
leap day is `l`. -/
def monthStart (l mn : Int) : Int :=
  if mn = 0 then 0
  else if mn = 1 then 31
  else if mn = 2 then 59 + l
  else if mn = 3 then 90 + l
  else if mn = 4 then 120 + l
  else if mn = 5 then 151 + l
  else if mn = 6 then 181 + l
  else if mn = 7 then 212 + l
  else if mn = 8 then 243 + l
  else if mn = 9 then 273 + l
  else if mn = 10 then 304 + l
  else 334 + l

/-- ECMAScript `MakeDay(year, month, date)`: with `ym = year + floor(month / 12)`
and `mn = month mod 12`, the day number of the first day of month `mn` of year
`ym`, plus `date - 1`. -/
def MakeDay (year month date : Int) : Int :=
  let ym := year + month / 12
  let mn := month % 12
  DayFromYear ym + monthStart (leapDay ym) mn + date - 1

/-- ECMAScript `MakeDate(day, time)`. -/
def MakeDate (day time : Int) : Int := day * msPerDay + time

/-- The largest time value of a `Date`: 100,000,000 days. -/
def maxTime : Int := 8640000000000000

/-- ECMAScript `TimeClip(t)`; `none` is `NaN`, the time value of an invalid
`Date`. -/
def TimeClip (t : Int) : Option Int :=
  if -maxTime ≤ t ∧ t ≤ maxTime then some t else none

/-- The host time zone: `LocalTZA t true` is the offset in milliseconds at the
UTC instant `t`, `LocalTZA t false` the offset used for the local time `t`.
Offsets stay below 24 hours, and the date constructed for the local midnight of
day `d` falls on day `d`. -/
structure Zone where
  LocalTZA : Int → Bool → Int
  offset_lt : ∀ t b, -msPerDay < LocalTZA t b ∧ LocalTZA t b < msPerDay
  midnight_day : ∀ d : Int,
    Day (d * msPerDay - LocalTZA (d * msPerDay) false +
      LocalTZA (d * msPerDay - LocalTZA (d * msPerDay) false) true) = d

/-- ECMAScript `LocalTime(t) = t + LocalTZA(t, true)`. -/
def LocalTime (z : Zone) (t : Int) : Int := t + z.LocalTZA t true

/-- ECMAScript `UTC(t) = t - LocalTZA(t, false)`. -/
def UTC (z : Zone) (t : Int) : Int := t - z.LocalTZA t false

/-- The constructor `new Date(year, month, date)`: the instant of the local
midnight of the day `MakeDay(yr, month, date)`, where a year from 0 to 99 stands
for `1900 + year`; `none` is an invalid `Date`. -/
def newDate (z : Zone) (year month date : Int) : Option Int :=
  let yr := if 0 ≤ year ∧ year ≤ 99 then 1900 + year else year
  TimeClip (UTC z (MakeDate (MakeDay yr month date) 0))

/-- The getter `Date.prototype.getFullYear` of a valid `Date`. -/
def getFullYear (z : Zone) (t : Int) : Int := YearFromTime (LocalTime z t)

/-- The getter `Date.prototype.getMonth` of a valid `Date`. -/
def getMonth (z : Zone) (t : Int) : Int := MonthFromTime (LocalTime z t)

/-- The getter `Date.prototype.getDate` of a valid `Date`. -/
def getDate (z : Zone) (t : Int) : Int := DateFromTime (LocalTime z t)

/-- A JavaScript number that is an integer or `NaN`. -/
inductive JSNum where
  | int (n : Int)
  | nan
deriving DecidableEq

/-- The value `Math.ceil(a / b)` for integers `a` and `b > 0`; a negative zero
counts as 0. -/
def ceilDiv (a b : Int) : Int := -((-a) / b)

/-! ## JavaScript string helpers -/

/-- The test `/^\d{14}$/.test(s)`: exactly 14 characters, all of them `0`-`9`. -/
def isPinflShape (s : String) : Bool :=
  s.data.length == 14 && s.data.all Char.isDigit

/-- The call `parseInt(s, 10)` on a string that starts with a digit: the value of its
longest prefix of decimal digits.  (The script only calls it on digit strings;
the `NaN` of a string with no leading digit is not represented.) -/
def parseInt (s : String) : Nat :=
  (s.data.takeWhile Char.isDigit).foldl (fun n c => 10 * n + (c.toNat - 48)) 0

/-- The call `s.slice(a, b)` for `0 ≤ a ≤ b`. -/
def slice (s : String) (a b : Nat) : String := ⟨(s.data.take b).drop a⟩

/-- The indexing `s[i]` as a one-character string (empty when out of range). -/
def charAt (s : String) (i : Nat) : String := ⟨(s.data.drop i).take 1⟩

/-- The call `s.padStart(n, fill)`: when `s` is shorter than `n`, the filler string is
repeated and truncated to the missing length and put in front. -/
def padStart (s : String) (n : Nat) (fill : String) : String :=
  if n ≤ s.data.length ∨ fill.data = [] then s
  else
    let k := n - s.data.length
    ⟨((List.replicate k fill.data).flatten.take k) ++ s.data⟩

/-- The conversion `String(n)` for a non-negative integer: its decimal digits. -/
def numToString (n : Nat) : String := Nat.repr n

/-- ECMAScript `WhiteSpace` and `LineTerminator` code points, the characters
removed by `String.prototype.trim`. -/
def isTrimChar (c : Char) : Bool :=
  let n := c.toNat
  n == 0x09 || n == 0x0A || n == 0x0B || n == 0x0C || n == 0x0D || n == 0x20 ||
  n == 0xA0 || n == 0x1680 || (0x2000 ≤ n && n ≤ 0x200A) || n == 0x2028 ||
  n == 0x2029 || n == 0x202F || n == 0x205F || n == 0x3000 || n == 0xFEFF

/-- The call `s.trim()`. -/
def trim (s : String) : String :=
  ⟨((s.data.dropWhile isTrimChar).reverse.dropWhile isTrimChar).reverse⟩

/-! ## `parsePINFL` -/

/-- The object returned by `parsePINFL`; `none` is JavaScript `null`. -/
structure Info where
  birth : Option String
  gender : Option String
  daysLeft : Option JSNum
deriving DecidableEq

/-- The literal `{birth:null, gender:null, daysLeft:null}`. -/
def Info.failed : Info := ⟨none, none, none⟩

/-- The `if / else if` chain assigning `century`; `none` is the final `else`. -/
def century (s : Nat) : Option Nat :=
  if s = 1 ∨ s = 2 then some 1800
  else if s = 3 ∨ s = 4 then some 1900
  else if s = 5 ∨ s = 6 then some 2000
  else none

/-- The variable `thisYearBirthday` for the instant `now`. -/
def thisYearBirthday (z : Zone) (now : Nat) (month day : Nat) : Option Int :=
  newDate z (getFullYear z now) ((month : Int) - 1) day

/-- The variable `target`; the comparison `thisYearBirthday >= today` is false
for an invalid `thisYearBirthday`. -/
def target (z : Zone) (now : Nat) (month day : Nat) : Option Int :=
  match thisYearBirthday z now month day with
  | some t =>
    if t ≥ (now : Int) then some t
    else newDate z (getFullYear z now + 1) ((month : Int) - 1) day
  | none => newDate z (getFullYear z now + 1) ((month : Int) - 1) day

/-- The variable `diffDays`; it is `NaN` for an invalid `target`. -/
def diffDays (z : Zone) (now : Nat) (month day : Nat) : JSNum :=
  match target z now month day with
  | some t => JSNum.int (ceilDiv (t - now) (1000 * 60 * 60 * 24))
  | none => JSNum.nan

/-- The template literal building `birth`. -/
def birthString (day month fullYear : Nat) : String :=
  padStart (numToString day) 2 "0" ++ "." ++ padStart (numToString month) 2 "0" ++ "." ++
    numToString fullYear

/-- The function `parsePINFL(pinfl)`, called at the instant `now` on a host of
time zone `z`.  The getters of an invalid `date` return `NaN`, which differs
from every number. -/
def parsePINFL (z : Zone) (now : Nat) (pinfl : String) : Info :=
  if ¬ isPinflShape pinfl then Info.failed
  else
    let s := parseInt (charAt pinfl 0)
    let dd := slice pinfl 1 3
    let mm := slice pinfl 3 5
    let yy := slice pinfl 5 7
    match century s with
    | none => Info.failed
    | some century =>
      let day := parseInt dd
      let month := parseInt mm
      let fullYear := century + parseInt yy
      match newDate z fullYear ((month : Int) - 1) day with
      | none => Info.failed
      | some date =>
        if getFullYear z date ≠ fullYear ∨ getMonth z date ≠ (month : Int) - 1 ∨
            getDate z date ≠ day then Info.failed
        else
          let gender := if s % 2 = 1 then "Erkak" else "Ayol"
          { birth := some (birthString day month fullYear)
            gender := some gender
            daysLeft := some (diffDays z now month day) }

/-! ## `processWorkbook` -/

/-- The field `DaysLeft` of an output record: a number or a string. -/
inductive Cell where
  | num (n : JSNum)
  | str (s : String)
deriving DecidableEq

/-- An element pushed on `out`. -/
structure Record where
  PINFL : String
  Birthdate : String
  Gender : String
  DaysLeft : Cell
deriving DecidableEq

/-- The expression `v || d` for a string or `null` `v`: `null` and the empty string are falsy. -/
def strOr (v : Option String) (d : String) : String :=
  match v with
  | none => d
  | some s => if s.data = [] then d else s

/-- The expression `v ?? d` for a number or `null` `v` and a string `d`. -/
def numOrElse (v : Option JSNum) (d : String) : Cell :=
  match v with
  | none => Cell.str d
  | some n => Cell.num n

/-- Lines 66-67: `cell.replace(/\D/g, '')`, then `padStart(14, '0')` when the
result is shorter than 14. -/
def normalize (cell : String) : String :=
  let raw : String := ⟨cell.data.filter Char.isDigit⟩
  if raw.data.length < 14 then padStart raw 14 "0" else raw

/-- A row of `json`: `none` for a missing (falsy) row, otherwise the cell texts. -/
abbrev Row := Option (List String)

/-- The expression `(row[0] ?? '').toString().trim()`. -/
def firstCell (row : List String) : String :=
  trim (row.head?.getD "")

/-- The `for` loop of `processWorkbook` from index `i` on, with the records
pushed so far in `out`; `clock i` is the instant at which row `i` is decoded. -/
def processLoop (z : Zone) (clock : Nat → Nat) :
    Nat → List Row → List Record → List Record
  | _, [], out => out
  | i, none :: rest, out => processLoop z clock (i + 1) rest out
  | i, some row :: rest, out =>
    let cell := firstCell row
    if cell.data = [] then processLoop z clock (i + 1) rest out
    else
      let raw := normalize cell
      let info := parsePINFL z (clock i) raw
      processLoop z clock (i + 1) rest
        (out ++ [{ PINFL := raw
                   Birthdate := strOr info.birth "Invalid"
                   Gender := strOr info.gender "Unknown"
                   DaysLeft := numOrElse info.daysLeft "N/A" }])

/-- The function `processWorkbook(wb)` on the rows `json` of the first sheet. -/
def processWorkbook (z : Zone) (clock : Nat → Nat) (json : List Row) : List Record :=
  processLoop z clock 0 json []

/-! ## Host time zones -/

/-- A zone with the constant offset `off`. -/
def fixedZone (off : Int) (h : -msPerDay < off ∧ off < msPerDay) : Zone where
  LocalTZA := fun _ _ => off
  offset_lt := fun _ _ => h
  midnight_day := by
    intro d
    show Day (d * msPerDay - off + off) = d
    unfold Day msPerDay
    omega

/-- The test that `t` lies in one of the half-open intervals `spans`. -/
def inSpans (spans : List (Int × Int)) (t : Int) : Bool :=
  spans.any (fun s => decide (s.1 ≤ t) && decide (t < s.2))

/-- A zone with standard offset `std` and one hour of daylight saving during the
UTC intervals `spans`.  A local time is on daylight saving when the instant one
hour and `std` before it is; so a local time skipped by a transition takes the
offset before it and a repeated local time the earlier instant. -/
def dstZone (std : Int) (h : -82800000 < std ∧ std < 82800000) (spans : List (Int × Int)) :
    Zone where
  LocalTZA := fun t isUTC =>
    if isUTC then (if inSpans spans t then std + 3600000 else std)
    else (if inSpans spans (t - (std + 3600000)) then std + 3600000 else std)
  offset_lt := by
    intro t b
    unfold msPerDay
    cases b <;> simp only [Bool.false_eq_true, if_false, if_true] <;> split <;> omega
  midnight_day := by
    intro d
    simp only [Bool.false_eq_true, if_false, if_true]
    unfold Day msPerDay
    by_cases h1 : inSpans spans (d * (1000 * 60 * 60 * 24) - (std + 3600000)) = true
    · rw [if_pos h1, if_pos h1]
      omega
    · rw [if_neg h1]
      split <;> omega

/-- Asia/Tashkent: UTC+5 without daylight saving. -/
def tashkent : Zone := fixedZone 18000000 (by decide)

/-- America/New_York, UTC-5, with its daylight-saving periods of 2023 and 2024. -/
def newYork : Zone :=
  dstZone (-18000000) (by decide)
    [(1678604400000, 1699164000000), (1710054000000, 1730613600000)]

/-- Europe/Berlin, UTC+1, with its daylight-saving periods of 2024 and 2025. -/
def berlin : Zone :=
  dstZone 3600000 (by decide)
    [(1711846800000, 1729990800000), (1743296400000, 1761440400000)]

/-! ## Reference notions (specification side) -/

/-- Gregorian leap-year rule. -/
def isLeapYear (y : Nat) : Bool :=
  y % 4 == 0 && (y % 100 != 0 || y % 400 == 0)

/-- Length of month `m` (1 to 12) of year `y`; 0 for any other `m`. -/
def daysInMonth (y m : Nat) : Nat :=
  if m = 2 then (if isLeapYear y then 29 else 28)
  else if m = 4 ∨ m = 6 ∨ m = 9 ∨ m = 11 then 30
  else if 1 ≤ m ∧ m ≤ 12 then 31
  else 0

/-- The triple `(y, m, d)` is a real date of the Gregorian calendar. -/
def isGregorianDate (y m d : Nat) : Prop :=
  1 ≤ m ∧ m ≤ 12 ∧ 1 ≤ d ∧ d ≤ daysInMonth y m

instance (y m d : Nat) : Decidable (isGregorianDate y m d) := by
  unfold isGregorianDate; infer_instance

/-- Length of month `mn` (0 to 11) in a year whose leap day is `l`. -/
def monthLength (l mn : Int) : Int :=
  if mn = 1 then 28 + l
  else if mn = 3 ∨ mn = 5 ∨ mn = 8 ∨ mn = 10 then 30
  else 31

/-- Value of the decimal digit at 0-based position `i` of `p`. -/
def digitAt (p : String) (i : Nat) : Nat := (p.data.getD i '0').toNat - 48

/-- The number written by the two digits at 0-based positions `i` and `i + 1`. -/
def numberAt (p : String) (i : Nat) : Nat := 10 * digitAt p i + digitAt p (i + 1)

/-- The series digit: the first digit of the identifier. -/
def seriesDigit (p : String) : Nat := digitAt p 0

/-- The number in digits 2-3 of the identifier: the day. -/
def dayField (p : String) : Nat := numberAt p 1

/-- The number in digits 4-5 of the identifier: the month. -/
def monthField (p : String) : Nat := numberAt p 3

/-- The number in digits 6-7 of the identifier: the year within the century. -/
def yearField (p : String) : Nat := numberAt p 5

/-- Century base of a series digit: 1800 for 1 or 2, 1900 for 3 or 4, 2000 for
5 or 6 (and 0 for the digits that have none). -/
def centuryBase (s : Nat) : Nat :=
  if s = 1 ∨ s = 2 then 1800
  else if s = 3 ∨ s = 4 then 1900
  else if s = 5 ∨ s = 6 then 2000
  else 0

/-- The full birth year encoded in the identifier. -/
def fullYearOf (p : String) : Nat := centuryBase (seriesDigit p) + yearField p

/-- The characters of `p` at 0-based positions `i` to `i + n - 1`. -/
def digitsAt (p : String) (i n : Nat) : String := ⟨(p.data.drop i).take n⟩

/-- The identifier is well formed: 14 decimal digits, a series digit from 1 to 6
and a real calendar date. -/
def isValidPinfl (p : String) : Prop :=
  p.data.length = 14 ∧ (∀ c ∈ p.data, c.isDigit = true) ∧
    (1 ≤ seriesDigit p ∧ seriesDigit p ≤ 6) ∧
    isGregorianDate (fullYearOf p) (monthField p) (dayField p)


/-- The result of a successful decode of `p` at the instant `now`. -/
def decoded (z : Zone) (now : Nat) (p : String) : Info :=
  { birth := some (birthString (dayField p) (monthField p) (fullYearOf p))
    gender := some (if seriesDigit p % 2 = 1 then "Erkak" else "Ayol")
    daysLeft := some (diffDays z now (monthField p) (dayField p)) }


/-- Number of days of year `y`. -/
def yearLength (y : Nat) : Nat := if isLeapYear y then 366 else 365

/-- Number of days in the years 1969 to `y - 1`. -/
def daysBeforeYear (y : Nat) : Nat :=
  ((List.range (y - 1969)).map (fun i => yearLength (1969 + i))).sum

/-- Number of days in the months 1 to `m - 1` of year `y`. -/
def daysBeforeMonth (y m : Nat) : Nat :=
  ((List.range (m - 1)).map (fun i => daysInMonth y (i + 1))).sum

/-- Number of calendar days from 1 January 1969 to the date `(y, m, d)`, for a
real date of 1969 or later. -/
def dayNumber (c : Nat × Nat × Nat) : Int :=
  ((daysBeforeYear c.1 + daysBeforeMonth c.1 c.2.1 + (c.2.2 - 1) : Nat) : Int)

/-- Number of calendar days from the date `a` to the date `b`. -/
def daysBetween (a b : Nat × Nat × Nat) : Int := dayNumber b - dayNumber a

/-- The occurrence of the birthday `(m, d)` in year `y`: the date `(y, m, d)`,
with 29 February rolled forward to 1 March when `y` is not a leap year. -/
def rollForward (y m d : Nat) : Nat × Nat × Nat :=
  if m = 2 ∧ d = 29 ∧ isLeapYear y = false then (y, 3, 1) else (y, m, d)

/-- The calendar date `(year, month, day)` of the local time `t`. -/
def civilDate (t : Int) : Nat × Nat × Nat :=
  ((YearFromTime t).toNat, (MonthFromTime t + 1).toNat, (DateFromTime t).toNat)

/-- The local calendar date `(year, month, day)` of the instant `now`: the values
of `getFullYear`, `getMonth` plus one, and `getDate`. -/
def todayOf (z : Zone) (now : Nat) : Nat × Nat × Nat := civilDate (LocalTime z now)

/-- The local calendar date of the day after the one of the instant `now`. -/
def tomorrowOf (z : Zone) (now : Nat) : Nat × Nat × Nat :=
  civilDate (LocalTime z now + msPerDay)

/-- The next occurrence of the birthday `(m, d)` seen from the date `today`: this
year's when it is not behind, otherwise next year's. -/
def nextOccurrence (today : Nat × Nat × Nat) (m d : Nat) : Nat × Nat × Nat :=
  if dayNumber today ≤ dayNumber (rollForward today.1 m d) then rollForward today.1 m d
  else rollForward (today.1 + 1) m d

/-- The local time of the midnight that starts the day asked for by
`new Date(y, m - 1, d)`. -/
def localMidnight (y : Int) (m d : Nat) : Int :=
  MakeDate (MakeDay y ((m : Int) - 1) d) 0

/-- The host's UTC offset at the instant `now` is also its offset at the local
midnights of the birthday `(m, d)` in the current and in the next year: no
change of offset lies between today and the birthday. -/
def steadyOffset (z : Zone) (now : Nat) (m d : Nat) : Prop :=
  z.LocalTZA (localMidnight (getFullYear z now) m d) false = z.LocalTZA now true ∧
    z.LocalTZA (localMidnight (getFullYear z now + 1) m d) false = z.LocalTZA now true

instance (z : Zone) (now m d : Nat) : Decidable (steadyOffset z now m d) := by
  unfold steadyOffset; infer_instance

/-- The countdown computed on local times: the days from the day of the local
time `t` to the birthday `(m, d)` of its year when that midnight is not behind
`t`, otherwise to next year's. -/
def localCountdown (t : Int) (m d : Nat) : Int :=
  (if MakeDay (YearFromTime t) ((m : Int) - 1) d * msPerDay ≥ t then
      MakeDay (YearFromTime t) ((m : Int) - 1) d
    else MakeDay (YearFromTime t + 1) ((m : Int) - 1) d) - Day t

/-- The decimal digits of `c`, in their original order. -/
def digitsOf (c : String) : List Char := c.data.filter Char.isDigit

/-- The normalised form of a cell: its digits, left-padded with '0' to 14. -/
def normalForm (c : String) : String :=
  ⟨List.replicate (14 - (digitsOf c).length) '0' ++ digitsOf c⟩

/-- The code points of ECMAScript white space and line terminators. -/
def blankCodes : List Nat :=
  [0x09, 0x0A, 0x0B, 0x0C, 0x0D, 0x20, 0xA0, 0x1680, 0x2000, 0x2001, 0x2002, 0x2003, 0x2004,
    0x2005, 0x2006, 0x2007, 0x2008, 0x2009, 0x200A, 0x2028, 0x2029, 0x202F, 0x205F, 0x3000,
    0xFEFF]

/-- The character is white space or a line terminator. -/
def isBlank (c : Char) : Bool := blankCodes.contains c.toNat

/-- The list without its leading blank characters. -/
def stripLeading : List Char → List Char
  | [] => []
  | c :: cs => if isBlank c then stripLeading cs else c :: cs

/-- The text without its leading and trailing blank characters. -/
def trimmedText (s : String) : String :=
  ⟨(stripLeading (stripLeading s.data).reverse).reverse⟩

/-- The text of the first cell of a row; empty for a missing or empty row. -/
def firstCellText (row : Row) : String :=
  match row with
  | some (c :: _) => c
  | _ => ""

/-- The trimmed first cell of a row. -/
def cellOf (row : Row) : String := trimmedText (firstCellText row)

/-- The record expected for a non-blank cell decoded at the instant `now`: the
three decoded values when decoding succeeds, the three placeholders otherwise. -/
def expectedRecord (z : Zone) (now : Nat) (cell : String) : Record :=
  match parsePINFL z now (normalForm cell) with
  | ⟨some b, some g, some n⟩ =>
    { PINFL := normalForm cell, Birthdate := b, Gender := g, DaysLeft := Cell.num n }
  | _ =>
    { PINFL := normalForm cell, Birthdate := "Invalid", Gender := "Unknown",
      DaysLeft := Cell.str "N/A" }

/-- The record of a cell without digits. -/
def blankRecord : Record :=
  { PINFL := "00000000000000", Birthdate := "Invalid", Gender := "Unknown",
    DaysLeft := Cell.str "N/A" }

/-! ## Lemmas on the time arithmetic -/

theorem DayFromYear_succ (y : Int) : DayFromYear (y + 1) = DayFromYear y + DaysInYear y := by
  unfold DayFromYear DaysInYear
  split_ifs <;> omega

theorem DaysInYear_pos (y : Int) : 365 ≤ DaysInYear y ∧ DaysInYear y ≤ 366 := by
  unfold DaysInYear
  split_ifs <;> omega

theorem DayFromYear_mono {a b : Int} (h : a ≤ b) : DayFromYear a ≤ DayFromYear b := by
  unfold DayFromYear
  omega

theorem YearFromTime_spec (t : Int) :
    DayFromYear (YearFromTime t) ≤ Day t ∧ Day t < DayFromYear (YearFromTime t + 1) := by
  unfold YearFromTime
  simp only
  generalize Day t = d
  split_ifs with h1 h2
  · refine ⟨h1, ?_⟩
    unfold DayFromYear at *
    omega
  · refine ⟨h2, ?_⟩
    simpa using h1
  · constructor
    · unfold DayFromYear at *
      omega
    · simpa using h2

theorem YearFromTime_unique {t y : Int} (h1 : DayFromYear y ≤ Day t)
    (h2 : Day t < DayFromYear (y + 1)) : YearFromTime t = y := by
  have hs := YearFromTime_spec t
  by_contra hne
  rcases lt_or_gt_of_ne hne with hlt | hgt
  · have := DayFromYear_mono (show YearFromTime t + 1 ≤ y by omega)
    omega
  · have := DayFromYear_mono (show y + 1 ≤ YearFromTime t by omega)
    omega

theorem TimeFromYear_le_iff (y t : Int) : TimeFromYear y ≤ t ↔ DayFromYear y ≤ Day t := by
  unfold TimeFromYear Day msPerDay
  omega

/-- The computed `YearFromTime(t)` is the largest `y` with `TimeFromYear(y) ≤ t`, as
the ECMAScript specification defines it. -/
theorem YearFromTime_isGreatest (t : Int) :
    IsGreatest {y : Int | TimeFromYear y ≤ t} (YearFromTime t) := by
  have hs := YearFromTime_spec t
  refine ⟨(TimeFromYear_le_iff _ _).2 hs.1, ?_⟩
  intro y hy
  have hy2 := (TimeFromYear_le_iff _ _).1 hy
  by_contra hlt
  have := DayFromYear_mono (show YearFromTime t + 1 ≤ y by omega)
  omega

theorem Day_MakeDate (d : Int) (r : Int) (h0 : 0 ≤ r) (h1 : r < msPerDay) :
    Day (MakeDate d r) = d := by
  unfold Day MakeDate msPerDay at *
  omega

theorem ceilDiv_eq_ceil (a b : Int) (hb : 0 < b) : ceilDiv a b = ⌈(a : ℚ) / (b : ℚ)⌉ := by
  unfold ceilDiv
  have h := Rat.floor_intCast_div_natCast (-a) b.toNat
  have hb2 : ((b.toNat : ℤ)) = b := Int.toNat_of_nonneg hb.le
  have hb3 : ((b.toNat : ℚ)) = (b : ℚ) := by exact_mod_cast hb2
  rw [hb3, hb2] at h
  rw [← h, Int.cast_neg, neg_div, Int.floor_neg, neg_neg]


theorem leapDay_spec (y : Int) :
    (leapDay y = 0 ∨ leapDay y = 1) ∧ DaysInYear y = 365 + leapDay y := by
  have := DaysInYear_pos y
  unfold leapDay
  split_ifs <;> omega

theorem DayWithinYear_range (t : Int) :
    0 ≤ DayWithinYear t ∧ DayWithinYear t < DaysInYear (YearFromTime t) := by
  have hs := YearFromTime_spec t
  rw [DayFromYear_succ] at hs
  unfold DayWithinYear
  omega

theorem monthOfDay_eq (d l : Int) (_hl : l = 0 ∨ l = 1) (k : Int) (h0 : 0 ≤ k) (h1 : k ≤ 11)
    (hlo : monthStart l k ≤ d) (hhi : d < monthStart l k + monthLength l k) :
    monthOfDay d l = k := by
  have hk : k = 0 ∨ k = 1 ∨ k = 2 ∨ k = 3 ∨ k = 4 ∨ k = 5 ∨ k = 6 ∨ k = 7 ∨ k = 8 ∨
      k = 9 ∨ k = 10 ∨ k = 11 := by omega
  unfold monthOfDay
  rcases hk with h | h | h | h | h | h | h | h | h | h | h | h <;> subst h
  · have e1 : monthStart l 0 = 0 := rfl
    have e2 : monthLength l 0 = 31 := rfl
    rw [e1] at hlo hhi; rw [e2] at hhi
    rw [if_pos (by omega)]
  · have e1 : monthStart l 1 = 31 := rfl
    have e2 : monthLength l 1 = 28 + l := rfl
    rw [e1] at hlo hhi; rw [e2] at hhi
    rw [if_neg (by omega), if_pos (by omega)]
  · have e1 : monthStart l 2 = 59 + l := rfl
    have e2 : monthLength l 2 = 31 := rfl
    rw [e1] at hlo hhi; rw [e2] at hhi
    rw [if_neg (by omega), if_neg (by omega), if_pos (by omega)]
  · have e1 : monthStart l 3 = 90 + l := rfl
    have e2 : monthLength l 3 = 30 := rfl
    rw [e1] at hlo hhi; rw [e2] at hhi
    rw [if_neg (by omega), if_neg (by omega), if_neg (by omega), if_pos (by omega)]
  · have e1 : monthStart l 4 = 120 + l := rfl
    have e2 : monthLength l 4 = 31 := rfl
    rw [e1] at hlo hhi; rw [e2] at hhi
    rw [if_neg (by omega), if_neg (by omega), if_neg (by omega), if_neg (by omega),
      if_pos (by omega)]
  · have e1 : monthStart l 5 = 151 + l := rfl
    have e2 : monthLength l 5 = 30 := rfl
    rw [e1] at hlo hhi; rw [e2] at hhi
    rw [if_neg (by omega), if_neg (by omega), if_neg (by omega), if_neg (by omega),
      if_neg (by omega), if_pos (by omega)]
  · have e1 : monthStart l 6 = 181 + l := rfl
    have e2 : monthLength l 6 = 31 := rfl
    rw [e1] at hlo hhi; rw [e2] at hhi
    rw [if_neg (by omega), if_neg (by omega), if_neg (by omega), if_neg (by omega),
      if_neg (by omega), if_neg (by omega), if_pos (by omega)]
  · have e1 : monthStart l 7 = 212 + l := rfl
    have e2 : monthLength l 7 = 31 := rfl
    rw [e1] at hlo hhi; rw [e2] at hhi
    rw [if_neg (by omega), if_neg (by omega), if_neg (by omega), if_neg (by omega),
      if_neg (by omega), if_neg (by omega), if_neg (by omega), if_pos (by omega)]
  · have e1 : monthStart l 8 = 243 + l := rfl
    have e2 : monthLength l 8 = 30 := rfl
    rw [e1] at hlo hhi; rw [e2] at hhi
    rw [if_neg (by omega), if_neg (by omega), if_neg (by omega), if_neg (by omega),
      if_neg (by omega), if_neg (by omega), if_neg (by omega), if_neg (by omega),
      if_pos (by omega)]
  · have e1 : monthStart l 9 = 273 + l := rfl
    have e2 : monthLength l 9 = 31 := rfl
    rw [e1] at hlo hhi; rw [e2] at hhi
    rw [if_neg (by omega), if_neg (by omega), if_neg (by omega), if_neg (by omega),
      if_neg (by omega), if_neg (by omega), if_neg (by omega), if_neg (by omega),
      if_neg (by omega), if_pos (by omega)]
  · have e1 : monthStart l 10 = 304 + l := rfl
    have e2 : monthLength l 10 = 30 := rfl
    rw [e1] at hlo hhi; rw [e2] at hhi
    rw [if_neg (by omega), if_neg (by omega), if_neg (by omega), if_neg (by omega),
      if_neg (by omega), if_neg (by omega), if_neg (by omega), if_neg (by omega),
      if_neg (by omega), if_neg (by omega), if_pos (by omega)]
  · have e1 : monthStart l 11 = 334 + l := rfl
    have e2 : monthLength l 11 = 31 := rfl
    rw [e1] at hlo hhi; rw [e2] at hhi
    rw [if_neg (by omega), if_neg (by omega), if_neg (by omega), if_neg (by omega),
      if_neg (by omega), if_neg (by omega), if_neg (by omega), if_neg (by omega),
      if_neg (by omega), if_neg (by omega), if_neg (by omega)]

theorem monthOfDay_cases (d l : Int) (_hl : l = 0 ∨ l = 1) (h0 : 0 ≤ d) (h1 : d < 365 + l) :
    ∃ k : Int, 0 ≤ k ∧ k ≤ 11 ∧ monthStart l k ≤ d ∧ d < monthStart l k + monthLength l k := by
  have hc : d < 31 ∨ (31 ≤ d ∧ d < 59 + l) ∨ (59 + l ≤ d ∧ d < 90 + l) ∨
    (90 + l ≤ d ∧ d < 120 + l) ∨ (120 + l ≤ d ∧ d < 151 + l) ∨ (151 + l ≤ d ∧ d < 181 + l) ∨
    (181 + l ≤ d ∧ d < 212 + l) ∨ (212 + l ≤ d ∧ d < 243 + l) ∨ (243 + l ≤ d ∧ d < 273 + l) ∨
    (273 + l ≤ d ∧ d < 304 + l) ∨ (304 + l ≤ d ∧ d < 334 + l) ∨
    (334 + l ≤ d ∧ d < 365 + l) := by omega
  rcases hc with h | h | h | h | h | h | h | h | h | h | h | h
  · refine ⟨0, by omega, by omega, ?_, ?_⟩
    · rw [show monthStart l 0 = 0 from rfl]; omega
    · rw [show monthStart l 0 = 0 from rfl, show monthLength l 0 = 31 from rfl]; omega
  · refine ⟨1, by omega, by omega, ?_, ?_⟩
    · rw [show monthStart l 1 = 31 from rfl]; omega
    · rw [show monthStart l 1 = 31 from rfl, show monthLength l 1 = 28 + l from rfl]; omega
  · refine ⟨2, by omega, by omega, ?_, ?_⟩
    · rw [show monthStart l 2 = 59 + l from rfl]; omega
    · rw [show monthStart l 2 = 59 + l from rfl, show monthLength l 2 = 31 from rfl]; omega
  · refine ⟨3, by omega, by omega, ?_, ?_⟩
    · rw [show monthStart l 3 = 90 + l from rfl]; omega
    · rw [show monthStart l 3 = 90 + l from rfl, show monthLength l 3 = 30 from rfl]; omega
  · refine ⟨4, by omega, by omega, ?_, ?_⟩
    · rw [show monthStart l 4 = 120 + l from rfl]; omega
    · rw [show monthStart l 4 = 120 + l from rfl, show monthLength l 4 = 31 from rfl]; omega
  · refine ⟨5, by omega, by omega, ?_, ?_⟩
    · rw [show monthStart l 5 = 151 + l from rfl]; omega
    · rw [show monthStart l 5 = 151 + l from rfl, show monthLength l 5 = 30 from rfl]; omega
  · refine ⟨6, by omega, by omega, ?_, ?_⟩
    · rw [show monthStart l 6 = 181 + l from rfl]; omega
    · rw [show monthStart l 6 = 181 + l from rfl, show monthLength l 6 = 31 from rfl]; omega
  · refine ⟨7, by omega, by omega, ?_, ?_⟩
    · rw [show monthStart l 7 = 212 + l from rfl]; omega
    · rw [show monthStart l 7 = 212 + l from rfl, show monthLength l 7 = 31 from rfl]; omega
  · refine ⟨8, by omega, by omega, ?_, ?_⟩
    · rw [show monthStart l 8 = 243 + l from rfl]; omega
    · rw [show monthStart l 8 = 243 + l from rfl, show monthLength l 8 = 30 from rfl]; omega
  · refine ⟨9, by omega, by omega, ?_, ?_⟩
    · rw [show monthStart l 9 = 273 + l from rfl]; omega
    · rw [show monthStart l 9 = 273 + l from rfl, show monthLength l 9 = 31 from rfl]; omega
  · refine ⟨10, by omega, by omega, ?_, ?_⟩
    · rw [show monthStart l 10 = 304 + l from rfl]; omega
    · rw [show monthStart l 10 = 304 + l from rfl, show monthLength l 10 = 30 from rfl]; omega
  · refine ⟨11, by omega, by omega, ?_, ?_⟩
    · rw [show monthStart l 11 = 334 + l from rfl]; omega
    · rw [show monthStart l 11 = 334 + l from rfl, show monthLength l 11 = 31 from rfl]; omega

theorem dateOfDay_eq (d l k : Int) (h0 : 0 ≤ k) (h1 : k ≤ 11) :
    dateOfDay d l k = d - monthStart l k + 1 := by
  have hk : k = 0 ∨ k = 1 ∨ k = 2 ∨ k = 3 ∨ k = 4 ∨ k = 5 ∨ k = 6 ∨ k = 7 ∨ k = 8 ∨
      k = 9 ∨ k = 10 ∨ k = 11 := by omega
  rcases hk with h | h | h | h | h | h | h | h | h | h | h | h <;> subst h
  · rw [show dateOfDay d l 0 = d + 1 from rfl, show monthStart l 0 = 0 from rfl]; omega
  · rw [show dateOfDay d l 1 = d - 30 from rfl, show monthStart l 1 = 31 from rfl]; omega
  · rw [show dateOfDay d l 2 = d - 58 - l from rfl, show monthStart l 2 = 59 + l from rfl]; omega
  · rw [show dateOfDay d l 3 = d - 89 - l from rfl, show monthStart l 3 = 90 + l from rfl]; omega
  · rw [show dateOfDay d l 4 = d - 119 - l from rfl, show monthStart l 4 = 120 + l from rfl]; omega
  · rw [show dateOfDay d l 5 = d - 150 - l from rfl, show monthStart l 5 = 151 + l from rfl]; omega
  · rw [show dateOfDay d l 6 = d - 180 - l from rfl, show monthStart l 6 = 181 + l from rfl]; omega
  · rw [show dateOfDay d l 7 = d - 211 - l from rfl, show monthStart l 7 = 212 + l from rfl]; omega
  · rw [show dateOfDay d l 8 = d - 242 - l from rfl, show monthStart l 8 = 243 + l from rfl]; omega
  · rw [show dateOfDay d l 9 = d - 272 - l from rfl, show monthStart l 9 = 273 + l from rfl]; omega
  · rw [show dateOfDay d l 10 = d - 303 - l from rfl, show monthStart l 10 = 304 + l from rfl]; omega
  · rw [show dateOfDay d l 11 = d - 333 - l from rfl, show monthStart l 11 = 334 + l from rfl]; omega

theorem monthStart_range (l mn : Int) (_hl : l = 0 ∨ l = 1) (h0 : 0 ≤ mn) (h1 : mn ≤ 11) :
    0 ≤ monthStart l mn ∧ monthStart l mn + monthLength l mn ≤ 365 + l := by
  have hk : mn = 0 ∨ mn = 1 ∨ mn = 2 ∨ mn = 3 ∨ mn = 4 ∨ mn = 5 ∨ mn = 6 ∨ mn = 7 ∨ mn = 8 ∨
      mn = 9 ∨ mn = 10 ∨ mn = 11 := by omega
  rcases hk with h | h | h | h | h | h | h | h | h | h | h | h <;> subst h
  · rw [show monthStart l 0 = 0 from rfl, show monthLength l 0 = 31 from rfl]; omega
  · rw [show monthStart l 1 = 31 from rfl, show monthLength l 1 = 28 + l from rfl]; omega
  · rw [show monthStart l 2 = 59 + l from rfl, show monthLength l 2 = 31 from rfl]; omega
  · rw [show monthStart l 3 = 90 + l from rfl, show monthLength l 3 = 30 from rfl]; omega
  · rw [show monthStart l 4 = 120 + l from rfl, show monthLength l 4 = 31 from rfl]; omega
  · rw [show monthStart l 5 = 151 + l from rfl, show monthLength l 5 = 30 from rfl]; omega
  · rw [show monthStart l 6 = 181 + l from rfl, show monthLength l 6 = 31 from rfl]; omega
  · rw [show monthStart l 7 = 212 + l from rfl, show monthLength l 7 = 31 from rfl]; omega
  · rw [show monthStart l 8 = 243 + l from rfl, show monthLength l 8 = 30 from rfl]; omega
  · rw [show monthStart l 9 = 273 + l from rfl, show monthLength l 9 = 31 from rfl]; omega
  · rw [show monthStart l 10 = 304 + l from rfl, show monthLength l 10 = 30 from rfl]; omega
  · rw [show monthStart l 11 = 334 + l from rfl, show monthLength l 11 = 31 from rfl]; omega

theorem monthOfDay_spec (d l : Int) (hl : l = 0 ∨ l = 1) (h0 : 0 ≤ d) (h1 : d < 365 + l) :
    0 ≤ monthOfDay d l ∧ monthOfDay d l ≤ 11 ∧ 1 ≤ dateOfDay d l (monthOfDay d l) ∧
      dateOfDay d l (monthOfDay d l) ≤ monthLength l (monthOfDay d l) ∧
      d = monthStart l (monthOfDay d l) + dateOfDay d l (monthOfDay d l) - 1 := by
  obtain ⟨k, k0, k1, k2, k3⟩ := monthOfDay_cases d l hl h0 h1
  rw [monthOfDay_eq d l hl k k0 k1 k2 k3, dateOfDay_eq d l k k0 k1]
  omega

theorem monthOfDay_unique (l mn dt : Int) (hl : l = 0 ∨ l = 1) (h0 : 0 ≤ mn) (h1 : mn ≤ 11)
    (h2 : 1 ≤ dt) (h3 : dt ≤ monthLength l mn) :
    monthOfDay (monthStart l mn + dt - 1) l = mn ∧
      dateOfDay (monthStart l mn + dt - 1) l mn = dt := by
  constructor
  · exact monthOfDay_eq _ l hl mn h0 h1 (by omega) (by omega)
  · rw [dateOfDay_eq _ l mn h0 h1]; omega

theorem month_date_decomp (t : Int) :
    0 ≤ MonthFromTime t ∧ MonthFromTime t ≤ 11 ∧ 1 ≤ DateFromTime t ∧
      DateFromTime t ≤ monthLength (InLeapYear t) (MonthFromTime t) ∧
      DayWithinYear t = monthStart (InLeapYear t) (MonthFromTime t) + DateFromTime t - 1 := by
  have hw := DayWithinYear_range t
  have hl := leapDay_spec (YearFromTime t)
  unfold DateFromTime MonthFromTime InLeapYear
  exact monthOfDay_spec _ _ hl.1 hw.1 (by omega)

theorem getters_of_day {t y w : Int} (hd : Day t = DayFromYear y + w) (h0 : 0 ≤ w)
    (h1 : w < DaysInYear y) :
    YearFromTime t = y ∧ DayWithinYear t = w := by
  have hy : YearFromTime t = y := by
    apply YearFromTime_unique
    · omega
    · rw [DayFromYear_succ]; omega
  refine ⟨hy, ?_⟩
  unfold DayWithinYear
  rw [hy]; omega

/-- Inside a year, the month and the day of the month determine the day. -/
theorem month_date_unique {t y mn dt : Int} (h0 : 0 ≤ mn) (h1 : mn ≤ 11) (h2 : 1 ≤ dt)
    (h3 : dt ≤ monthLength (leapDay y) mn)
    (hd : Day t = DayFromYear y + monthStart (leapDay y) mn + dt - 1) :
    YearFromTime t = y ∧ MonthFromTime t = mn ∧ DateFromTime t = dt := by
  have hl := leapDay_spec y
  have hr := monthStart_range (leapDay y) mn hl.1 h0 h1
  obtain ⟨hy, hw⟩ := getters_of_day (t := t) (y := y) (w := monthStart (leapDay y) mn + dt - 1)
    (by omega) (by omega) (by omega)
  have hu := monthOfDay_unique (leapDay y) mn dt hl.1 h0 h1 h2 h3
  have hm : MonthFromTime t = mn := by
    unfold MonthFromTime InLeapYear
    rw [hy, hw]; exact hu.1
  refine ⟨hy, hm, ?_⟩
  unfold DateFromTime InLeapYear
  rw [hm, hy, hw]; exact hu.2


theorem leapDay_natCast (y : Nat) : leapDay (y : Int) = if isLeapYear y then 1 else 0 := by
  unfold leapDay DaysInYear isLeapYear
  have h4 : ((y : Int) % 4 = 0) ↔ (y % 4 = 0) := by omega
  have h100 : ((y : Int) % 100 = 0) ↔ (y % 100 = 0) := by omega
  have h400 : ((y : Int) % 400 = 0) ↔ (y % 400 = 0) := by omega
  by_cases a : y % 4 = 0 <;> by_cases b : y % 100 = 0 <;> by_cases c : y % 400 = 0 <;>
    simp [a, b, c, h4, h100, h400]

theorem monthLength_natCast (y m : Nat) (h1 : 1 ≤ m) (h2 : m ≤ 12) :
    monthLength (leapDay (y : Int)) ((m : Int) - 1) = (daysInMonth y m : Int) := by
  rw [leapDay_natCast]
  have hm : m = 1 ∨ m = 2 ∨ m = 3 ∨ m = 4 ∨ m = 5 ∨ m = 6 ∨ m = 7 ∨ m = 8 ∨ m = 9 ∨
      m = 10 ∨ m = 11 ∨ m = 12 := by omega
  unfold daysInMonth
  rcases hm with h | h | h | h | h | h | h | h | h | h | h | h <;> subst h <;>
    cases isLeapYear y <;> rfl

theorem MakeDay_inMonth (y mn d : Int) (h0 : 0 ≤ mn) (h1 : mn ≤ 11) :
    MakeDay y mn d = DayFromYear y + monthStart (leapDay y) mn + d - 1 := by
  unfold MakeDay
  have e1 : mn / 12 = 0 := by omega
  have e2 : mn % 12 = mn := by omega
  simp only [e1, e2, add_zero]


/-! ## Month tables and day offsets -/

theorem month_table (l k : Int) (h0 : 0 ≤ k) (h1 : k ≤ 11) :
    (k = 0 ∧ monthStart l k = 0 ∧ monthLength l k = 31) ∨
      (k = 1 ∧ monthStart l k = 31 ∧ monthLength l k = 28 + l) ∨
      (k = 2 ∧ monthStart l k = 59 + l ∧ monthLength l k = 31) ∨
      (k = 3 ∧ monthStart l k = 90 + l ∧ monthLength l k = 30) ∨
      (k = 4 ∧ monthStart l k = 120 + l ∧ monthLength l k = 31) ∨
      (k = 5 ∧ monthStart l k = 151 + l ∧ monthLength l k = 30) ∨
      (k = 6 ∧ monthStart l k = 181 + l ∧ monthLength l k = 31) ∨
      (k = 7 ∧ monthStart l k = 212 + l ∧ monthLength l k = 31) ∨
      (k = 8 ∧ monthStart l k = 243 + l ∧ monthLength l k = 30) ∨
      (k = 9 ∧ monthStart l k = 273 + l ∧ monthLength l k = 31) ∨
      (k = 10 ∧ monthStart l k = 304 + l ∧ monthLength l k = 30) ∨
      (k = 11 ∧ monthStart l k = 334 + l ∧ monthLength l k = 31) := by
  have hk : k = 0 ∨ k = 1 ∨ k = 2 ∨ k = 3 ∨ k = 4 ∨ k = 5 ∨ k = 6 ∨ k = 7 ∨ k = 8 ∨
      k = 9 ∨ k = 10 ∨ k = 11 := by omega
  rcases hk with h | h | h | h | h | h | h | h | h | h | h | h <;> subst h <;>
    simp only [true_and, OfNat.ofNat_ne_zero, false_and, or_false, false_or] <;>
    first | exact ⟨rfl, rfl⟩ | (norm_num; exact ⟨rfl, rfl⟩)

theorem offset_bounds (l l2 k d : Int) (hl : l = 0 ∨ l = 1) (hl2 : l2 = 0 ∨ l2 = 1)
    (h0 : 0 ≤ k) (h1 : k ≤ 11) (hd1 : 1 ≤ d) (hd2 : d ≤ monthLength 1 k) :
    0 ≤ monthStart l k + d - 1 ∧ monthStart l k + d - 1 < 365 + l ∧
      monthStart l2 k ≤ monthStart l k + 1 ∧ (l2 ≤ l → monthStart l2 k ≤ monthStart l k) := by
  have t1 := month_table l k h0 h1
  have t2 := month_table l2 k h0 h1
  have t3 := month_table 1 k h0 h1
  omega

theorem ceilDiv_days (X t : Int) :
    ceilDiv (X * msPerDay - t) (1000 * 60 * 60 * 24) = X - Day t := by
  unfold ceilDiv Day msPerDay
  omega

theorem leapDay_succ (y : Int) : leapDay y + leapDay (y + 1) ≤ 1 := by
  unfold leapDay DaysInYear
  split_ifs <;> omega


/-! ## Dates of the host zone -/

theorem msPerDay_eq : msPerDay = 86400000 := by decide

theorem Day_LocalTime_UTC (z : Zone) (X : Int) :
    Day (LocalTime z (UTC z (MakeDate X 0))) = X := by
  unfold LocalTime UTC MakeDate
  simp only [add_zero]
  exact z.midnight_day X

theorem TimeClip_some (x : Int) (h1 : -maxTime ≤ x) (h2 : x ≤ maxTime) :
    TimeClip x = some x := by
  unfold TimeClip
  rw [if_pos ⟨h1, h2⟩]

theorem TimeClip_eq_some {x t : Int} (h : TimeClip x = some t) : t = x := by
  unfold TimeClip at h
  split at h
  · exact (Option.some.inj h).symm
  · exact absurd h (by simp)

theorem UTC_range (z : Zone) (X : Int) (h1 : -99999999 ≤ X) (h2 : X ≤ 99999999) :
    -maxTime ≤ UTC z (MakeDate X 0) ∧ UTC z (MakeDate X 0) ≤ maxTime := by
  have ho := z.offset_lt (MakeDate X 0) false
  unfold UTC
  generalize z.LocalTZA (MakeDate X 0) false = o at ho
  unfold MakeDate maxTime
  unfold msPerDay at *
  omega

theorem newDate_valid (z : Zone) (y m d : Int) (hy : 100 ≤ y)
    (h1 : -99999999 ≤ MakeDay y m d) (h2 : MakeDay y m d ≤ 99999999) :
    newDate z y m d = some (UTC z (MakeDate (MakeDay y m d) 0)) := by
  unfold newDate
  simp only [if_neg (show ¬ (0 ≤ y ∧ y ≤ 99) by omega)]
  have hr := UTC_range z (MakeDay y m d) h1 h2
  exact TimeClip_some _ hr.1 hr.2

theorem newDate_eq_some {z : Zone} {y m d t : Int} (hy : 100 ≤ y)
    (h : newDate z y m d = some t) : t = UTC z (MakeDate (MakeDay y m d) 0) := by
  unfold newDate at h
  simp only [if_neg (show ¬ (0 ≤ y ∧ y ≤ 99) by omega)] at h
  exact TimeClip_eq_some h

theorem DayFromYear_bound (y : Int) (h1 : 100 ≤ y) (h2 : y ≤ 9999) :
    -1000000 ≤ DayFromYear y ∧ DayFromYear y ≤ 3000000 := by
  unfold DayFromYear
  omega

theorem MakeDay_bound (y m d : Nat) (hy : 100 ≤ y) (hy2 : y ≤ 9999) (h1 : 1 ≤ m) (h2 : m ≤ 12)
    (hd : d ≤ 99) :
    -99999999 ≤ MakeDay (y : Int) ((m : Int) - 1) d ∧
      MakeDay (y : Int) ((m : Int) - 1) d ≤ 99999999 := by
  have k0 : 0 ≤ (m : Int) - 1 := by omega
  have k1 : (m : Int) - 1 ≤ 11 := by omega
  rw [MakeDay_inMonth _ _ _ k0 k1]
  have hb := DayFromYear_bound (y : Int) (by omega) (by omega)
  have hl := leapDay_spec (y : Int)
  have hr := monthStart_range (leapDay (y : Int)) ((m : Int) - 1) hl.1 k0 k1
  have t1 := month_table (leapDay (y : Int)) ((m : Int) - 1) k0 k1
  have hd2 : (d : Int) ≤ 99 := by omega
  have hd3 : (0 : Int) ≤ d := by omega
  generalize monthStart (leapDay (y : Int)) ((m : Int) - 1) = s at *
  generalize monthLength (leapDay (y : Int)) ((m : Int) - 1) = ml at *
  generalize DayFromYear (y : Int) = dy at *
  generalize (d : Int) = di at *
  omega

/-- The check of lines 99-106 accepts exactly the real calendar dates. -/
theorem newDate_check_iff (z : Zone) (y m d : Nat) (hy : 100 ≤ y) (hy2 : y ≤ 9999)
    (hd : d ≤ 99) :
    (∃ t, newDate z y ((m : Int) - 1) d = some t ∧ getFullYear z t = y ∧
      getMonth z t = (m : Int) - 1 ∧ getDate z t = d) ↔ isGregorianDate y m d := by
  unfold getFullYear getMonth getDate isGregorianDate
  constructor
  · rintro ⟨t, -, e1, e2, e3⟩
    have hdec := month_date_decomp (LocalTime z t)
    unfold InLeapYear at hdec
    rw [e1, e2, e3] at hdec
    obtain ⟨a0, a1, a2, a3, -⟩ := hdec
    have hm1 : 1 ≤ m := by omega
    have hm2 : m ≤ 12 := by omega
    rw [monthLength_natCast y m hm1 hm2] at a3
    refine ⟨hm1, hm2, by omega, by exact_mod_cast a3⟩
  · rintro ⟨hm1, hm2, hd1, hd2⟩
    have hlen := monthLength_natCast y m hm1 hm2
    have hb := MakeDay_bound y m d hy hy2 hm1 hm2 hd
    have hv := newDate_valid z (y : Int) ((m : Int) - 1) d (by omega) hb.1 hb.2
    refine ⟨_, hv, ?_⟩
    have k0 : 0 ≤ (m : Int) - 1 := by omega
    have k1 : (m : Int) - 1 ≤ 11 := by omega
    have k2 : 1 ≤ (d : Int) := by omega
    apply month_date_unique k0 k1 k2
    · rw [hlen]; exact_mod_cast hd2
    · rw [Day_LocalTime_UTC, MakeDay_inMonth _ _ _ k0 k1]

/-! ## `parsePINFL` in closed form -/

theorem isPinflShape_iff (p : String) :
    isPinflShape p = true ↔ p.data.length = 14 ∧ ∀ c ∈ p.data, c.isDigit = true := by
  unfold isPinflShape
  simp

theorem length14 (l : List Char) (h : l.length = 14) :
    ∃ c0 c1 c2 c3 c4 c5 c6 c7 c8 c9 c10 c11 c12 c13,
      l = [c0, c1, c2, c3, c4, c5, c6, c7, c8, c9, c10, c11, c12, c13] := by
  match l, h with
  | [c0, c1, c2, c3, c4, c5, c6, c7, c8, c9, c10, c11, c12, c13], _ =>
    exact ⟨c0, c1, c2, c3, c4, c5, c6, c7, c8, c9, c10, c11, c12, c13, rfl⟩

theorem parseInt_one (a : Char) (ha : a.isDigit = true) :
    parseInt ⟨[a]⟩ = a.toNat - 48 := by
  simp [parseInt, List.takeWhile, ha]

theorem parseInt_two (a b : Char) (ha : a.isDigit = true) (hb : b.isDigit = true) :
    parseInt ⟨[a, b]⟩ = 10 * (a.toNat - 48) + (b.toNat - 48) := by
  simp [parseInt, List.takeWhile, ha, hb]

theorem digit_range (a : Char) (ha : a.isDigit = true) : 48 ≤ a.toNat ∧ a.toNat ≤ 57 := by
  unfold Char.isDigit at ha
  simp at ha
  unfold Char.toNat
  have h1 := ha.1
  have h2 := ha.2
  rw [UInt32.le_def] at h1 h2
  constructor
  · exact h1
  · exact h2


theorem fields_of_shape (p : String) (h : isPinflShape p = true) :
    parseInt (charAt p 0) = seriesDigit p ∧ parseInt (slice p 1 3) = dayField p ∧
      parseInt (slice p 3 5) = monthField p ∧ parseInt (slice p 5 7) = yearField p := by
  obtain ⟨hlen, hdig⟩ := (isPinflShape_iff p).1 h
  obtain ⟨l⟩ := p
  obtain ⟨c0, c1, c2, c3, c4, c5, c6, c7, c8, c9, c10, c11, c12, c13, rfl⟩ := length14 l hlen
  have h0 : c0.isDigit = true := hdig c0 (by simp)
  have h1 : c1.isDigit = true := hdig c1 (by simp)
  have h2 : c2.isDigit = true := hdig c2 (by simp)
  have h3 : c3.isDigit = true := hdig c3 (by simp)
  have h4 : c4.isDigit = true := hdig c4 (by simp)
  have h5 : c5.isDigit = true := hdig c5 (by simp)
  have h6 : c6.isDigit = true := hdig c6 (by simp)
  refine ⟨parseInt_one c0 h0, parseInt_two c1 c2 h1 h2, parseInt_two c3 c4 h3 h4,
    parseInt_two c5 c6 h5 h6⟩

theorem century_eq (s : Nat) :
    century s = if 1 ≤ s ∧ s ≤ 6 then some (centuryBase s) else none := by
  unfold century centuryBase
  by_cases h : 1 ≤ s ∧ s ≤ 6
  · rw [if_pos h]
    have hs : s = 1 ∨ s = 2 ∨ s = 3 ∨ s = 4 ∨ s = 5 ∨ s = 6 := by omega
    rcases hs with e | e | e | e | e | e <;> subst e <;> rfl
  · rw [if_neg h, if_neg (by omega), if_neg (by omega), if_neg (by omega)]

theorem centuryBase_range (s : Nat) (h : 1 ≤ s ∧ s ≤ 6) :
    1800 ≤ centuryBase s ∧ centuryBase s ≤ 2000 := by
  have hs : s = 1 ∨ s = 2 ∨ s = 3 ∨ s = 4 ∨ s = 5 ∨ s = 6 := by omega
  rcases hs with e | e | e | e | e | e <;> subst e <;> decide

theorem fields_bound (p : String) (h : isPinflShape p = true) :
    dayField p ≤ 99 ∧ monthField p ≤ 99 ∧ yearField p ≤ 99 := by
  obtain ⟨hlen, hdig⟩ := (isPinflShape_iff p).1 h
  obtain ⟨l⟩ := p
  obtain ⟨c0, c1, c2, c3, c4, c5, c6, c7, c8, c9, c10, c11, c12, c13, rfl⟩ := length14 l hlen
  have h1 := digit_range c1 (hdig c1 (by simp))
  have h2 := digit_range c2 (hdig c2 (by simp))
  have h3 := digit_range c3 (hdig c3 (by simp))
  have h4 := digit_range c4 (hdig c4 (by simp))
  have h5 := digit_range c5 (hdig c5 (by simp))
  have h6 := digit_range c6 (hdig c6 (by simp))
  refine ⟨?_, ?_, ?_⟩
  · show 10 * (c1.toNat - 48) + (c2.toNat - 48) ≤ 99
    omega
  · show 10 * (c3.toNat - 48) + (c4.toNat - 48) ≤ 99
    omega
  · show 10 * (c5.toNat - 48) + (c6.toNat - 48) ≤ 99
    omega

/-- The value of `parsePINFL` on a string of 14 decimal digits. -/
theorem parsePINFL_shape (z : Zone) (now : Nat) (p : String) (h : isPinflShape p = true) :
    parsePINFL z now p =
      if (1 ≤ seriesDigit p ∧ seriesDigit p ≤ 6) ∧
          isGregorianDate (fullYearOf p) (monthField p) (dayField p) then decoded z now p
      else Info.failed := by
  obtain ⟨e0, e1, e2, e3⟩ := fields_of_shape p h
  obtain ⟨b1, -, b3⟩ := fields_bound p h
  unfold parsePINFL
  rw [if_neg (by simp [h])]
  simp only [e0, e1, e2, e3]
  rw [century_eq]
  by_cases hs : 1 ≤ seriesDigit p ∧ seriesDigit p ≤ 6
  · rw [if_pos hs]
    have hc := centuryBase_range _ hs
    have hchk := newDate_check_iff z (fullYearOf p) (monthField p) (dayField p)
      (by unfold fullYearOf; omega) (by unfold fullYearOf; omega) b1
    unfold fullYearOf at hchk
    by_cases hg : isGregorianDate (fullYearOf p) (monthField p) (dayField p)
    · have hcond : (1 ≤ seriesDigit p ∧ seriesDigit p ≤ 6) ∧
          isGregorianDate (fullYearOf p) (monthField p) (dayField p) := ⟨hs, hg⟩
      rw [if_pos hcond]
      obtain ⟨t, ht, a1, a2, a3⟩ := hchk.2 hg
      simp only [ht, a1, a2, a3, ne_eq, not_true_eq_false, or_self, if_false]
      rfl
    · have hcond : ¬ ((1 ≤ seriesDigit p ∧ seriesDigit p ≤ 6) ∧
          isGregorianDate (fullYearOf p) (monthField p) (dayField p)) := fun hh => hg hh.2
      rw [if_neg hcond]
      simp only
      cases hn : newDate z ((centuryBase (seriesDigit p) + yearField p : Nat) : Int)
          ((monthField p : Int) - 1) (dayField p) with
      | none => rfl
      | some t =>
        simp only
        have hne : getFullYear z t ≠ ((centuryBase (seriesDigit p) + yearField p : Nat) : Int) ∨
            getMonth z t ≠ (monthField p : Int) - 1 ∨ getDate z t ≠ dayField p := by
          by_contra hcon
          push_neg at hcon
          exact hg (hchk.1 ⟨t, hn, hcon⟩)
        rw [if_pos hne]
  · have hcond : ¬ ((1 ≤ seriesDigit p ∧ seriesDigit p ≤ 6) ∧
        isGregorianDate (fullYearOf p) (monthField p) (dayField p)) := fun hh => hs hh.1
    rw [if_neg hs, if_neg hcond]

theorem parsePINFL_not_shape (z : Zone) (now : Nat) (p : String) (h : ¬ isPinflShape p = true) :
    parsePINFL z now p = Info.failed := by
  unfold parsePINFL
  rw [if_pos h]

/-- The value of `parsePINFL` on any string. -/
theorem parsePINFL_closed (z : Zone) (now : Nat) (p : String) :
    (isValidPinfl p ∧ parsePINFL z now p = decoded z now p) ∨
      (¬ isValidPinfl p ∧ parsePINFL z now p = Info.failed) := by
  by_cases h : isPinflShape p = true
  · rw [parsePINFL_shape z now p h]
    have h2 := (isPinflShape_iff p).1 h
    by_cases hv : (1 ≤ seriesDigit p ∧ seriesDigit p ≤ 6) ∧
        isGregorianDate (fullYearOf p) (monthField p) (dayField p)
    · rw [if_pos hv]
      exact Or.inl ⟨⟨h2.1, h2.2, hv.1, hv.2⟩, rfl⟩
    · rw [if_neg hv]
      exact Or.inr ⟨fun hh => hv ⟨hh.2.2.1, hh.2.2.2⟩, rfl⟩
  · rw [parsePINFL_not_shape z now p h]
    exact Or.inr ⟨fun hh => h ((isPinflShape_iff p).2 ⟨hh.1, hh.2.1⟩), rfl⟩

theorem success_fields (z : Zone) (now : Nat) (p : String) :
    (isValidPinfl p ∧ (parsePINFL z now p).birth =
        some (birthString (dayField p) (monthField p) (fullYearOf p)) ∧
      (parsePINFL z now p).gender =
        some (if seriesDigit p % 2 = 1 then "Erkak" else "Ayol") ∧
      (parsePINFL z now p).daysLeft = some (diffDays z now (monthField p) (dayField p))) ∨
    (¬ isValidPinfl p ∧ (parsePINFL z now p).birth = none ∧
      (parsePINFL z now p).gender = none ∧ (parsePINFL z now p).daysLeft = none) := by
  rcases parsePINFL_closed z now p with ⟨hv, e⟩ | ⟨hv, e⟩
  · exact Or.inl ⟨hv, by rw [e]; rfl, by rw [e]; rfl, by rw [e]; rfl⟩
  · exact Or.inr ⟨hv, by rw [e]; rfl, by rw [e]; rfl, by rw [e]; rfl⟩

theorem valid_day_bound (p : String) (hv : isValidPinfl p) :
    1 ≤ monthField p ∧ monthField p ≤ 12 ∧ 1 ≤ dayField p ∧
      (dayField p : Int) ≤ monthLength 1 ((monthField p : Int) - 1) := by
  obtain ⟨-, -, -, hm1, hm2, hd1, hd2⟩ := hv
  refine ⟨hm1, hm2, hd1, ?_⟩
  have e := monthLength_natCast (fullYearOf p) (monthField p) hm1 hm2
  have hl := leapDay_spec (fullYearOf p : Int)
  have t1 := month_table (leapDay (fullYearOf p : Int)) ((monthField p : Int) - 1)
    (by omega) (by omega)
  have t2 := month_table 1 ((monthField p : Int) - 1) (by omega) (by omega)
  have hd3 : (dayField p : Int) ≤ (daysInMonth (fullYearOf p) (monthField p) : Int) := by
    exact_mod_cast hd2
  omega

/-! ## The birth string -/

theorem digit_cases (a : Char) (ha : a.isDigit = true) :
    a = '0' ∨ a = '1' ∨ a = '2' ∨ a = '3' ∨ a = '4' ∨ a = '5' ∨ a = '6' ∨ a = '7' ∨
      a = '8' ∨ a = '9' := by
  have hr := digit_range a ha
  have e : Char.ofNat a.toNat = a := Char.ofNat_toNat a
  generalize a.toNat = n at hr e
  obtain ⟨h1, h2⟩ := hr
  interval_cases n <;> subst e <;> decide

theorem pad_two_digits (a b : Char) (ha : a.isDigit = true) (hb : b.isDigit = true) :
    padStart (numToString (10 * (a.toNat - 48) + (b.toNat - 48))) 2 "0" = ⟨[a, b]⟩ := by
  rcases digit_cases a ha with h | h | h | h | h | h | h | h | h | h <;>
    rcases digit_cases b hb with h2 | h2 | h2 | h2 | h2 | h2 | h2 | h2 | h2 | h2 <;>
    subst h <;> subst h2 <;> rfl

theorem year_length (n : Nat) (h1 : 1800 ≤ n) (h2 : n < 2100) : (numToString n).length = 4 := by
  interval_cases n <;> rfl

theorem pad_fields_of_shape (p : String) (h : isPinflShape p = true) :
    padStart (numToString (dayField p)) 2 "0" = digitsAt p 1 2 ∧
      padStart (numToString (monthField p)) 2 "0" = digitsAt p 3 2 ∧
      (digitsAt p 1 2).length = 2 ∧ (digitsAt p 3 2).length = 2 ∧ yearField p ≤ 99 := by
  obtain ⟨hlen, hdig⟩ := (isPinflShape_iff p).1 h
  obtain ⟨l⟩ := p
  obtain ⟨c0, c1, c2, c3, c4, c5, c6, c7, c8, c9, c10, c11, c12, c13, rfl⟩ := length14 l hlen
  have h1 : c1.isDigit = true := hdig c1 (by simp)
  have h2 : c2.isDigit = true := hdig c2 (by simp)
  have h3 : c3.isDigit = true := hdig c3 (by simp)
  have h4 : c4.isDigit = true := hdig c4 (by simp)
  have h5 := digit_range c5 (hdig c5 (by simp))
  have h6 := digit_range c6 (hdig c6 (by simp))
  refine ⟨pad_two_digits c1 c2 h1 h2, pad_two_digits c3 c4 h3 h4, rfl, rfl, ?_⟩
  show 10 * (c5.toNat - 48) + (c6.toNat - 48) ≤ 99
  omega

theorem birthString_valid (p : String) (hv : isValidPinfl p) :
    birthString (dayField p) (monthField p) (fullYearOf p) =
      digitsAt p 1 2 ++ "." ++ digitsAt p 3 2 ++ "." ++ numToString (fullYearOf p) ∧
    (numToString (fullYearOf p)).length = 4 ∧
    (birthString (dayField p) (monthField p) (fullYearOf p)).length = 10 := by
  obtain ⟨hlen, hdig, hs, -⟩ := hv
  obtain ⟨e1, e2, l1, l2, hy⟩ := pad_fields_of_shape p ((isPinflShape_iff p).2 ⟨hlen, hdig⟩)
  have hc := centuryBase_range _ hs
  have h4 : (numToString (fullYearOf p)).length = 4 :=
    year_length _ (by unfold fullYearOf; omega) (by unfold fullYearOf; omega)
  unfold birthString
  rw [e1, e2]
  refine ⟨rfl, h4, ?_⟩
  simp only [String.length_append, l1, l2, h4]
  rfl

/-! ## The countdown -/

theorem year_ge (t : Int) (h : -msPerDay ≤ t) : 1969 ≤ YearFromTime t := by
  have hs := YearFromTime_spec t
  by_contra hlt
  have hm := DayFromYear_mono (show YearFromTime t + 1 ≤ 1969 by omega)
  have h69 : DayFromYear 1969 = -365 := by decide
  have hd : -1 ≤ Day t := by unfold Day; unfold msPerDay at *; omega
  omega

theorem LocalTime_ge (z : Zone) (now : Nat) : -msPerDay ≤ LocalTime z now := by
  have ho := z.offset_lt now true
  unfold LocalTime
  omega

theorem year_of_now (z : Zone) (now : Nat) : 1969 ≤ YearFromTime (LocalTime z now) :=
  year_ge _ (LocalTime_ge z now)

/-- The days `B` and `N` of this year's and next year's birthday around the
day `T` of the local time `t`. -/
theorem birthday_days (t : Int) (m d : Nat) (hm1 : 1 ≤ m) (hm2 : m ≤ 12) (hd1 : 1 ≤ d)
    (hd2 : (d : Int) ≤ monthLength 1 ((m : Int) - 1)) :
    Day t - 365 ≤ MakeDay (YearFromTime t) ((m : Int) - 1) d ∧
      MakeDay (YearFromTime t) ((m : Int) - 1) d ≤ Day t + 365 ∧
      Day t < MakeDay (YearFromTime t + 1) ((m : Int) - 1) d ∧
      MakeDay (YearFromTime t + 1) ((m : Int) - 1) d ≤
        MakeDay (YearFromTime t) ((m : Int) - 1) d + 366 := by
  have k0 : 0 ≤ (m : Int) - 1 := by omega
  have k1 : (m : Int) - 1 ≤ 11 := by omega
  have k2 : 1 ≤ (d : Int) := by omega
  have hs := YearFromTime_spec t
  have hl := leapDay_spec (YearFromTime t)
  have hl2 := leapDay_spec (YearFromTime t + 1)
  have hll := leapDay_succ (YearFromTime t)
  rw [DayFromYear_succ] at hs
  rw [MakeDay_inMonth _ _ _ k0 k1, MakeDay_inMonth _ _ _ k0 k1, DayFromYear_succ]
  have ob := offset_bounds (leapDay (YearFromTime t)) (leapDay (YearFromTime t + 1))
    ((m : Int) - 1) d hl.1 hl2.1 k0 k1 k2 hd2
  have ob2 := offset_bounds (leapDay (YearFromTime t + 1)) (leapDay (YearFromTime t))
    ((m : Int) - 1) d hl2.1 hl.1 k0 k1 k2 hd2
  generalize monthStart (leapDay (YearFromTime t)) ((m : Int) - 1) = s1 at *
  generalize monthStart (leapDay (YearFromTime t + 1)) ((m : Int) - 1) = s2 at *
  generalize leapDay (YearFromTime t) = l1 at *
  generalize leapDay (YearFromTime t + 1) = l2 at *
  generalize DaysInYear (YearFromTime t) = ly at *
  generalize DayFromYear (YearFromTime t) = dy at *
  generalize Day t = T at *
  omega

theorem localCountdown_range (t : Int) (m d : Nat) (hm1 : 1 ≤ m) (hm2 : m ≤ 12) (hd1 : 1 ≤ d)
    (hd2 : (d : Int) ≤ monthLength 1 ((m : Int) - 1)) :
    0 ≤ localCountdown t m d ∧ localCountdown t m d ≤ 366 := by
  obtain ⟨b1, b2, b3, b4⟩ := birthday_days t m d hm1 hm2 hd1 hd2
  have hT : Day t = t / 86400000 := rfl
  unfold localCountdown
  rw [msPerDay_eq]
  generalize MakeDay (YearFromTime t) ((m : Int) - 1) d = B at *
  generalize MakeDay (YearFromTime t + 1) ((m : Int) - 1) d = N at *
  generalize Day t = T at *
  by_cases hc : B * 86400000 ≥ t
  · rw [if_pos hc]; omega
  · rw [if_neg hc]; omega

theorem steady_arith (now off B N T : Int) (h0 : 0 ≤ now) (_ho1 : -86400000 < off)
    (_ho2 : off < 86400000) (hr : now + 366 * 86400000 ≤ 8640000000000000)
    (hT : T = (now + off) / 86400000) (b1 : T - 365 ≤ B) (b2 : B ≤ T + 365) (b3 : T < N)
    (b4 : N ≤ B + 366) :
    (-8640000000000000 ≤ B * 86400000 - off ∧ B * 86400000 - off ≤ 8640000000000000) ∧
      (B * 86400000 - off ≥ now ↔ B * 86400000 ≥ now + off) ∧
      (¬ B * 86400000 ≥ now + off →
        -8640000000000000 ≤ N * 86400000 - off ∧ N * 86400000 - off ≤ 8640000000000000) := by
  refine ⟨by omega, by omega, ?_⟩
  intro hc
  omega

/-- When the offset is steady and the target lies in the range of `Date`, the
countdown is the local one. -/
theorem diffDays_steady (z : Zone) (now m d : Nat) (hm1 : 1 ≤ m) (hm2 : m ≤ 12) (hd1 : 1 ≤ d)
    (hd2 : (d : Int) ≤ monthLength 1 ((m : Int) - 1)) (hs : steadyOffset z now m d)
    (hr : (now : Int) + 366 * msPerDay ≤ maxTime) :
    diffDays z now m d = JSNum.int (localCountdown (LocalTime z now) m d) := by
  have hY := year_of_now z now
  have hY1 : ¬ (0 ≤ YearFromTime (LocalTime z now) ∧ YearFromTime (LocalTime z now) ≤ 99) := by
    omega
  have hY2 : ¬ (0 ≤ YearFromTime (LocalTime z now) + 1 ∧
      YearFromTime (LocalTime z now) + 1 ≤ 99) := by omega
  obtain ⟨b1, b2, b3, b4⟩ := birthday_days (LocalTime z now) m d hm1 hm2 hd1 hd2
  have ho := z.offset_lt now true
  obtain ⟨hs1, hs2⟩ := hs
  unfold localMidnight getFullYear at hs1 hs2
  have hT : Day (LocalTime z now) = ((now : Int) + z.LocalTZA now true) / 86400000 := rfl
  have hn0 : (0 : Int) ≤ now := by omega
  rw [msPerDay_eq] at ho hr
  unfold maxTime at hr
  obtain ⟨r1, r2, r3⟩ := steady_arith now (z.LocalTZA now true) _ _ _ hn0 ho.1 ho.2 hr hT
    b1 b2 b3 b4
  unfold diffDays target thisYearBirthday newDate getFullYear localCountdown
  simp only [if_neg hY1, if_neg hY2]
  unfold UTC
  rw [hs1, hs2]
  unfold MakeDate
  simp only [add_zero, msPerDay_eq]
  rw [TimeClip_some _ (by unfold maxTime; exact r1.1) (by unfold maxTime; exact r1.2)]
  simp only
  have hL : LocalTime z now = (now : Int) + z.LocalTZA now true := rfl
  by_cases hc : MakeDay (YearFromTime (LocalTime z now)) ((m : Int) - 1) d * 86400000 ≥
      LocalTime z now
  · rw [if_pos (r2.2 (by rw [← hL]; exact hc)), if_pos hc]
    simp only
    have := ceilDiv_days (MakeDay (YearFromTime (LocalTime z now)) ((m : Int) - 1) d)
      (LocalTime z now)
    rw [msPerDay_eq] at this
    rw [← this]
    congr 2
    rw [hL]
    ring
  · have hc2 : ¬ MakeDay (YearFromTime (LocalTime z now)) ((m : Int) - 1) d * 86400000 -
        z.LocalTZA now true ≥ (now : Int) := fun hh => hc (by rw [hL]; exact r2.1 hh)
    have r4 := r3 (by rw [← hL]; exact hc)
    rw [if_neg hc2, if_neg hc,
      TimeClip_some _ (by unfold maxTime; exact r4.1) (by unfold maxTime; exact r4.2)]
    simp only
    have := ceilDiv_days (MakeDay (YearFromTime (LocalTime z now) + 1) ((m : Int) - 1) d)
      (LocalTime z now)
    rw [msPerDay_eq] at this
    rw [← this]
    congr 2
    rw [hL]
    ring

/-! ## Day numbers of calendar dates -/

theorem yearLength_eq (y : Nat) : (yearLength y : Int) = DaysInYear (y : Int) := by
  have h := leapDay_natCast y
  have hl := leapDay_spec (y : Int)
  unfold yearLength
  cases hb : isLeapYear y <;> simp [hb] at h ⊢ <;> omega

theorem daysBeforeYear_succ (y : Nat) (hy : 1969 ≤ y) :
    daysBeforeYear (y + 1) = daysBeforeYear y + yearLength y := by
  unfold daysBeforeYear
  have e : y + 1 - 1969 = (y - 1969) + 1 := by omega
  rw [e, List.range_succ, List.map_append, List.sum_append]
  have e2 : 1969 + (y - 1969) = y := by omega
  simp [e2]

theorem DayFromYear_eq (k : Nat) : DayFromYear ((1969 + k : Nat) : Int) + 365 =
    (daysBeforeYear (1969 + k) : Int) := by
  induction k with
  | zero => decide
  | succ k ih =>
    have e : ((1969 + (k + 1) : Nat) : Int) = ((1969 + k : Nat) : Int) + 1 := by push_cast; ring
    have e3 : 1969 + (k + 1) = (1969 + k) + 1 := by omega
    rw [e, DayFromYear_succ, e3, daysBeforeYear_succ _ (by omega)]
    have hy := yearLength_eq (1969 + k)
    push_cast at ih hy ⊢
    omega

theorem monthStart_eq (y m : Nat) (h1 : 1 ≤ m) (h2 : m ≤ 12) :
    monthStart (leapDay (y : Int)) ((m : Int) - 1) = (daysBeforeMonth y m : Int) := by
  rw [leapDay_natCast]
  have hm : m = 1 ∨ m = 2 ∨ m = 3 ∨ m = 4 ∨ m = 5 ∨ m = 6 ∨ m = 7 ∨ m = 8 ∨ m = 9 ∨
      m = 10 ∨ m = 11 ∨ m = 12 := by omega
  simp only [daysBeforeMonth, daysInMonth]
  generalize isLeapYear y = b
  rcases hm with h | h | h | h | h | h | h | h | h | h | h | h <;> subst h <;>
    cases b <;> rfl

/-- The day number of a real date of 1969 or later, in the terms of `MakeDay`. -/
theorem dayNumber_eq (y m d : Nat) (hy : 1969 ≤ y) (h1 : 1 ≤ m) (h2 : m ≤ 12) (hd : 1 ≤ d) :
    dayNumber (y, m, d) =
      DayFromYear (y : Int) + monthStart (leapDay (y : Int)) ((m : Int) - 1) + (d : Int) - 1 +
        365 := by
  unfold dayNumber
  obtain ⟨k, rfl⟩ : ∃ k, y = 1969 + k := ⟨y - 1969, by omega⟩
  have e := DayFromYear_eq k
  rw [monthStart_eq _ _ h1 h2]
  push_cast at e ⊢
  omega

/-- The getters invert the day number: the date of a local time `t` has the day
number of `Day(t)`. -/
theorem dayNumber_civil (t : Int) (hY : 1969 ≤ YearFromTime t) :
    dayNumber (civilDate t) = Day t + 365 := by
  obtain ⟨a0, a1, a2, a3, a4⟩ := month_date_decomp t
  unfold civilDate
  rw [dayNumber_eq _ _ _ (by omega) (by omega) (by omega) (by omega)]
  have e1 : ((YearFromTime t).toNat : Int) = YearFromTime t := by omega
  have e2 : (((MonthFromTime t + 1).toNat : Nat) : Int) - 1 = MonthFromTime t := by omega
  have e3 : ((DateFromTime t).toNat : Int) = DateFromTime t := by omega
  rw [e1, e2, e3]
  unfold InLeapYear DayWithinYear at a4
  omega

/-- The `MakeDay` of a birthday in a year from 1969 on is the day number of its
occurrence in that year. -/
theorem MakeDay_eq_dayNumber (y m d : Nat) (hy : 1969 ≤ y) (h1 : 1 ≤ m) (h2 : m ≤ 12)
    (hd1 : 1 ≤ d) (hd2 : (d : Int) ≤ monthLength 1 ((m : Int) - 1)) :
    MakeDay (y : Int) ((m : Int) - 1) d + 365 = dayNumber (rollForward y m d) ∧
      1 ≤ (rollForward y m d).2.1 ∧ (rollForward y m d).2.1 ≤ 12 ∧
      1 ≤ (rollForward y m d).2.2 ∧
      ((rollForward y m d).2.2 : Int) ≤
        monthLength (leapDay (y : Int)) (((rollForward y m d).2.1 : Int) - 1) ∧
      (rollForward y m d).1 = y := by
  rw [MakeDay_inMonth _ _ _ (by omega) (by omega)]
  have hleap := leapDay_natCast y
  have t1 := month_table (leapDay (y : Int)) ((m : Int) - 1) (by omega) (by omega)
  have t2 := month_table 1 ((m : Int) - 1) (by omega) (by omega)
  unfold rollForward
  by_cases hc : m = 2 ∧ d = 29 ∧ isLeapYear y = false
  · rw [if_pos hc]
    obtain ⟨rfl, rfl, hb⟩ := hc
    rw [dayNumber_eq _ _ _ hy (by omega) (by omega) (by omega)]
    rw [hb] at hleap
    simp only [Bool.false_eq_true, if_false] at hleap
    rw [hleap]
    have e1 : monthStart 0 (((2 : Nat) : Int) - 1) = 31 := by decide
    have e2 : monthStart 0 (((3 : Nat) : Int) - 1) = 59 := by decide
    refine ⟨?_, show 1 ≤ 3 by decide, show 3 ≤ 12 by decide, show 1 ≤ 1 by decide,
      show ((1 : Nat) : Int) ≤ monthLength 0 (((3 : Nat) : Int) - 1) by decide, rfl⟩
    show DayFromYear (y : Int) + monthStart 0 (((2 : Nat) : Int) - 1) + ((29 : Nat) : Int) - 1 +
        365 =
      DayFromYear (y : Int) + monthStart 0 (((3 : Nat) : Int) - 1) + ((1 : Nat) : Int) - 1 + 365
    rw [e1, e2]
    push_cast
    omega
  · rw [if_neg hc]
    rw [dayNumber_eq _ _ _ hy h1 h2 hd1]
    refine ⟨rfl, h1, h2, hd1, ?_, rfl⟩
    show (d : Int) ≤ monthLength (leapDay (y : Int)) ((m : Int) - 1)
    cases hb : isLeapYear y
    · rw [hb] at hleap
      simp only [Bool.false_eq_true, if_false] at hleap
      rw [hleap] at t1 ⊢
      have : ¬ (m = 2 ∧ d = 29) := fun hh => hc ⟨hh.1, hh.2, hb⟩
      omega
    · rw [hb] at hleap
      simp only [if_true] at hleap
      rw [hleap]
      exact hd2

/-! ## The countdown as a count of calendar days -/

/-- Away from this year's birthday the comparison `thisYearBirthday >= today`
only depends on the days. -/
theorem localCountdown_offday (t : Int) (m d : Nat)
    (hT : Day t ≠ MakeDay (YearFromTime t) ((m : Int) - 1) d) :
    localCountdown t m d =
      (if Day t ≤ MakeDay (YearFromTime t) ((m : Int) - 1) d then
          MakeDay (YearFromTime t) ((m : Int) - 1) d
        else MakeDay (YearFromTime t + 1) ((m : Int) - 1) d) - Day t := by
  unfold localCountdown
  have hD : Day t = t / 86400000 := rfl
  generalize MakeDay (YearFromTime t) ((m : Int) - 1) d = B at *
  generalize MakeDay (YearFromTime t + 1) ((m : Int) - 1) d = N at *
  rw [msPerDay_eq]
  by_cases h1 : B * 86400000 ≥ t
  · rw [if_pos h1, if_pos (by omega)]
  · rw [if_neg h1, if_neg (by omega)]

theorem civilDate_eq_of_day (t : Int) (c : Nat × Nat × Nat) (hY : 1969 ≤ YearFromTime t)
    (hy : c.1 = (YearFromTime t).toNat) (h1 : 1 ≤ c.2.1) (h2 : c.2.1 ≤ 12)
    (h3 : 1 ≤ c.2.2)
    (h4 : (c.2.2 : Int) ≤ monthLength (leapDay (c.1 : Int)) ((c.2.1 : Int) - 1))
    (hday : Day t + 365 = dayNumber c) : civilDate t = c := by
  obtain ⟨y, m, d⟩ := c
  simp only at hy h1 h2 h3 h4
  rw [dayNumber_eq y m d (by omega) h1 h2 h3] at hday
  have k0 : 0 ≤ (m : Int) - 1 := by omega
  have k1 : (m : Int) - 1 ≤ 11 := by omega
  have k2 : 1 ≤ (d : Int) := by omega
  have hday2 : Day t =
      DayFromYear (y : Int) + monthStart (leapDay (y : Int)) ((m : Int) - 1) + (d : Int) - 1 := by
    omega
  obtain ⟨e1, e2, e3⟩ := month_date_unique k0 k1 k2 h4 hday2
  unfold civilDate
  rw [e1, e2, e3]
  simp

theorem Day_next (t : Int) : Day (t + msPerDay) = Day t + 1 := by
  unfold Day msPerDay
  omega

theorem year_of_next_day (t : Int) :
    YearFromTime (t + msPerDay) = YearFromTime t ∨
      YearFromTime (t + msPerDay) = YearFromTime t + 1 := by
  have hs := YearFromTime_spec t
  have hs2 := YearFromTime_spec (t + msPerDay)
  rw [Day_next] at hs2
  rw [DayFromYear_succ] at hs hs2
  have p1 := DaysInYear_pos (YearFromTime t)
  have p2 := DaysInYear_pos (YearFromTime t + 1)
  by_contra hcon
  push_neg at hcon
  rcases lt_or_gt_of_ne hcon.1 with hlt | hgt
  · have := DayFromYear_mono (show YearFromTime (t + msPerDay) + 1 ≤ YearFromTime t by omega)
    rw [DayFromYear_succ] at this
    omega
  · have := DayFromYear_mono (show YearFromTime t + 1 + 1 ≤ YearFromTime (t + msPerDay) by omega)
    rw [DayFromYear_succ, DayFromYear_succ] at this
    omega

theorem tomorrow_arith (now T dy ly s1 s2 d : Int) (hT : T = now / 86400000) (_h1 : dy ≤ T)
    (h2 : T < dy + ly) (hly : 365 ≤ ly) (hob1 : 0 ≤ s2 + d - 1) (hob2 : s1 ≤ s2 + 1)
    (ha : T + 1 - dy = s1 + d - 1 ∨ T + 1 - (dy + ly) = s2 + d - 1) :
    (if (dy + s1 + d - 1) * 86400000 ≥ now then dy + s1 + d - 1
      else dy + ly + s2 + d - 1) - T = 1 := by
  rcases ha with ha | ha
  · rw [if_pos (by omega)]; omega
  · rw [if_neg (by omega)]; omega

/-- When tomorrow's month and day are the birthday's, one day is left. -/
theorem localCountdown_tomorrow (t : Int) (m d : Nat) (hm1 : 1 ≤ m) (hm2 : m ≤ 12)
    (hd1 : 1 ≤ d) (hd2 : (d : Int) ≤ monthLength 1 ((m : Int) - 1))
    (hmth : MonthFromTime (t + msPerDay) = (m : Int) - 1)
    (hdte : DateFromTime (t + msPerDay) = (d : Int)) :
    localCountdown t m d = 1 := by
  have k0 : 0 ≤ (m : Int) - 1 := by omega
  have k1 : (m : Int) - 1 ≤ 11 := by omega
  have k2 : 1 ≤ (d : Int) := by omega
  have hs := YearFromTime_spec t
  rw [DayFromYear_succ] at hs
  have hl := leapDay_spec (YearFromTime t)
  have hl2 := leapDay_spec (YearFromTime t + 1)
  have ob := offset_bounds (leapDay (YearFromTime t + 1))
    (leapDay (YearFromTime t)) ((m : Int) - 1) d hl2.1 hl.1 k0 k1 k2 hd2
  have hly := (DaysInYear_pos (YearFromTime t)).1
  obtain ⟨-, -, -, -, a4⟩ := month_date_decomp (t + msPerDay)
  unfold DayWithinYear InLeapYear at a4
  rw [hmth, hdte, Day_next] at a4
  unfold localCountdown
  rw [MakeDay_inMonth _ _ _ k0 k1, MakeDay_inMonth _ _ _ k0 k1, DayFromYear_succ,
    msPerDay_eq]
  apply tomorrow_arith _ _ _ _ _ _ _ rfl hs.1 hs.2 hly ob.1 ob.2.2.1
  rcases year_of_next_day t with hy | hy
  · rw [hy] at a4
    exact Or.inl a4
  · rw [hy, DayFromYear_succ] at a4
    exact Or.inr a4

theorem year_eq_of_civil (t t2 : Int) (hY : 1969 ≤ YearFromTime t)
    (hY2 : 1969 ≤ YearFromTime t2) (h : civilDate t2 = civilDate t) :
    YearFromTime t2 = YearFromTime t ∧ Day t2 = Day t := by
  have d1 := dayNumber_civil t hY
  have d2 := dayNumber_civil t2 hY2
  rw [h] at d2
  have h1 := congrArg Prod.fst h
  simp only [civilDate] at h1
  constructor <;> omega

theorem month_date_of_civil (t : Int) (m d : Nat) (h : (civilDate t).2 = (m, d)) :
    MonthFromTime t = (m : Int) - 1 ∧ DateFromTime t = (d : Int) := by
  obtain ⟨a0, -, a2, -, -⟩ := month_date_decomp t
  have h1 := congrArg Prod.fst h
  have h2 := congrArg Prod.snd h
  simp only [civilDate] at h1 h2
  constructor <;> omega

/-- The facts on the days `B` (this year's birthday), `N` (next year's) and
`T` (today) that the countdown rests on. -/
theorem countdown_days (t : Int) (m d : Nat) (hY : 1969 ≤ YearFromTime t) (hm1 : 1 ≤ m)
    (hm2 : m ≤ 12) (hd1 : 1 ≤ d) (hd2 : (d : Int) ≤ monthLength 1 ((m : Int) - 1)) :
    MakeDay (YearFromTime t) ((m : Int) - 1) d + 365 =
        dayNumber (rollForward (civilDate t).1 m d) ∧
      MakeDay (YearFromTime t + 1) ((m : Int) - 1) d + 365 =
        dayNumber (rollForward ((civilDate t).1 + 1) m d) ∧
      (Day t = MakeDay (YearFromTime t) ((m : Int) - 1) d →
        civilDate t = rollForward (civilDate t).1 m d) := by
  have e1 : (((civilDate t).1 : Nat) : Int) = YearFromTime t := by
    show (((YearFromTime t).toNat : Nat) : Int) = YearFromTime t
    omega
  have e2 : ((((civilDate t).1 + 1 : Nat)) : Int) = YearFromTime t + 1 := by
    push_cast; omega
  have hy1 : 1969 ≤ (civilDate t).1 := by omega
  obtain ⟨a1, a2, a3, a4, a5, a6⟩ :=
    MakeDay_eq_dayNumber (civilDate t).1 m d hy1 hm1 hm2 hd1 hd2
  obtain ⟨b1, -⟩ := MakeDay_eq_dayNumber ((civilDate t).1 + 1) m d (by omega) hm1 hm2 hd1 hd2
  rw [e1] at a1
  rw [e2] at b1
  refine ⟨a1, b1, ?_⟩
  intro hT
  apply civilDate_eq_of_day t _ hY _ a2 a3 a4
  · rw [a6]; exact a5
  · rw [hT, a1]
  · rw [a6]; rfl

/-! ## Normalisation and the row loop -/

theorem flatten_replicate_zero (k : Nat) :
    (List.replicate k ['0']).flatten = List.replicate k '0' := by
  induction k with
  | zero => rfl
  | succ k ih => simp [List.replicate_succ, ih]

theorem normalize_data (c : String) :
    (normalize c).data = List.replicate (14 - (digitsOf c).length) '0' ++ digitsOf c := by
  unfold normalize digitsOf
  simp only
  by_cases h : (c.data.filter Char.isDigit).length < 14
  · rw [if_pos h]
    unfold padStart
    have h0 : ¬ (14 ≤ (c.data.filter Char.isDigit).length ∨ ("0" : String).data = []) := by
      intro hh
      rcases hh with hh | hh
      · omega
      · exact absurd hh (by decide)
    rw [if_neg h0]
    show ((List.replicate (14 - (c.data.filter Char.isDigit).length) ['0']).flatten.take
      (14 - (c.data.filter Char.isDigit).length)) ++ c.data.filter Char.isDigit = _
    rw [flatten_replicate_zero, List.take_of_length_le (by simp)]
  · rw [if_neg h]
    have e : 14 - (c.data.filter Char.isDigit).length = 0 := by omega
    rw [e]
    rfl

theorem normalize_eq_normalForm (c : String) : normalize c = normalForm c :=
  String.ext (normalize_data c)

theorem isTrimChar_eq_isBlank (c : Char) : isTrimChar c = isBlank c := by
  unfold isTrimChar isBlank blankCodes
  simp only
  generalize c.toNat = n
  rw [Bool.eq_iff_iff]
  have h1 : ((n == 0x09 || n == 0x0A || n == 0x0B || n == 0x0C || n == 0x0D || n == 0x20 ||
      n == 0xA0 || n == 0x1680 || (decide (0x2000 ≤ n) && decide (n ≤ 0x200A)) || n == 0x2028 ||
      n == 0x2029 || n == 0x202F || n == 0x205F || n == 0x3000 || n == 0xFEFF) = true) ↔
      (n = 0x09 ∨ n = 0x0A ∨ n = 0x0B ∨ n = 0x0C ∨ n = 0x0D ∨ n = 0x20 ∨
      n = 0xA0 ∨ n = 0x1680 ∨ (0x2000 ≤ n ∧ n ≤ 0x200A) ∨ n = 0x2028 ∨
      n = 0x2029 ∨ n = 0x202F ∨ n = 0x205F ∨ n = 0x3000 ∨ n = 0xFEFF) := by
    simp only [Bool.or_eq_true, Bool.and_eq_true, beq_iff_eq, decide_eq_true_eq, or_assoc]
  have h2 : ([0x09, 0x0A, 0x0B, 0x0C, 0x0D, 0x20, 0xA0, 0x1680, 0x2000, 0x2001, 0x2002, 0x2003,
      0x2004, 0x2005, 0x2006, 0x2007, 0x2008, 0x2009, 0x200A, 0x2028, 0x2029, 0x202F, 0x205F,
      0x3000, 0xFEFF].contains n = true) ↔
      (n = 0x09 ∨ n = 0x0A ∨ n = 0x0B ∨ n = 0x0C ∨ n = 0x0D ∨ n = 0x20 ∨ n = 0xA0 ∨
      n = 0x1680 ∨ n = 0x2000 ∨ n = 0x2001 ∨ n = 0x2002 ∨ n = 0x2003 ∨ n = 0x2004 ∨
      n = 0x2005 ∨ n = 0x2006 ∨ n = 0x2007 ∨ n = 0x2008 ∨ n = 0x2009 ∨ n = 0x200A ∨
      n = 0x2028 ∨ n = 0x2029 ∨ n = 0x202F ∨ n = 0x205F ∨ n = 0x3000 ∨ n = 0xFEFF) := by
    simp only [List.contains_cons, List.contains_nil, Bool.or_eq_true, beq_iff_eq,
      Bool.false_eq_true, or_false]
  rw [h1, h2]
  omega

theorem dropWhile_eq_stripLeading (l : List Char) :
    l.dropWhile isTrimChar = stripLeading l := by
  induction l with
  | nil => rfl
  | cons c cs ih =>
    rw [List.dropWhile_cons, stripLeading, ih, isTrimChar_eq_isBlank]

theorem trim_eq_trimmedText (s : String) : trim s = trimmedText s := by
  unfold trim trimmedText
  rw [dropWhile_eq_stripLeading, dropWhile_eq_stripLeading]

theorem firstCell_eq_cellOf (row : List String) : firstCell row = cellOf (some row) := by
  unfold firstCell cellOf firstCellText
  rw [trim_eq_trimmedText]
  cases row <;> rfl

theorem code_record (z : Zone) (now : Nat) (cell : String) :
    ({ PINFL := normalize cell
       Birthdate := strOr (parsePINFL z now (normalize cell)).birth "Invalid"
       Gender := strOr (parsePINFL z now (normalize cell)).gender "Unknown"
       DaysLeft := numOrElse (parsePINFL z now (normalize cell)).daysLeft "N/A" } : Record) =
      expectedRecord z now cell := by
  unfold expectedRecord
  rw [normalize_eq_normalForm]
  rcases parsePINFL_closed z now (normalForm cell) with ⟨hv, e⟩ | ⟨-, e⟩
  · rw [e]
    unfold decoded
    simp only
    obtain ⟨-, -, f3⟩ := birthString_valid _ hv
    have hb : (birthString (dayField (normalForm cell)) (monthField (normalForm cell))
        (fullYearOf (normalForm cell))).data ≠ [] := by
      intro hh
      have : (birthString (dayField (normalForm cell)) (monthField (normalForm cell))
        (fullYearOf (normalForm cell))).length = 0 := by
        show (birthString _ _ _).data.length = 0
        rw [hh]; rfl
      omega
    have hg : (if seriesDigit (normalForm cell) % 2 = 1 then "Erkak" else "Ayol").data ≠
        [] := by
      split_ifs <;> decide
    unfold strOr numOrElse
    simp only [if_neg hb, if_neg hg]
  · rw [e]
    rfl

theorem processLoop_eq (z : Zone) (clock : Nat → Nat) (rows : List Row) (i : Nat)
    (out : List Record) :
    processLoop z clock i rows out =
      out ++ ((rows.enumFrom i).filter (fun ir => !(cellOf ir.2).data.isEmpty)).map
        (fun ir => expectedRecord z (clock ir.1) (cellOf ir.2)) := by
  induction rows generalizing i out with
  | nil => simp [processLoop]
  | cons row rest ih =>
    cases row with
    | none =>
      rw [processLoop, ih]
      have hc : cellOf none = "" := by decide
      simp [List.enumFrom_cons, hc]
    | some r =>
      rw [processLoop]
      simp only
      rw [firstCell_eq_cellOf]
      by_cases hc : (cellOf (some r)).data = []
      · rw [if_pos hc, ih]
        simp [List.enumFrom_cons, hc]
      · rw [if_neg hc, ih, code_record]
        simp [List.enumFrom_cons, hc]

theorem trim_mem (cell : String) (ch : Char) (h : ch ∈ (trim cell).data) : ch ∈ cell.data := by
  unfold trim at h
  simp only [List.mem_reverse] at h
  have h1 := (List.dropWhile_sublist isTrimChar).subset h
  rw [List.mem_reverse] at h1
  exact (List.dropWhile_sublist isTrimChar).subset h1

theorem parsePINFL_zeros (z : Zone) (now : Nat) :
    parsePINFL z now "00000000000000" = Info.failed := by
  rw [parsePINFL_shape z now _ (by decide), if_neg (by decide)]

theorem expectedRecord_digitless (z : Zone) (now : Nat) (cell : String)
    (h : ∀ ch ∈ cell.data, ch.isDigit = false) :
    expectedRecord z now (trim cell) = blankRecord := by
  have hd : digitsOf (trim cell) = [] := by
    unfold digitsOf
    rw [List.filter_eq_nil_iff]
    intro ch hch
    rw [h ch (trim_mem cell ch hch)]
    decide
  have hn : normalForm (trim cell) = "00000000000000" := by
    unfold normalForm
    rw [hd]
    rfl
  unfold expectedRecord
  rw [hn, parsePINFL_zeros]
  rfl

/-- The trimmed text is the text without a blank prefix and a blank suffix, and
it neither starts nor ends with a blank character. -/
theorem trimmedText_spec (s : String) :
    (∃ a b : List Char, s.data = a ++ (trimmedText s).data ++ b ∧
      (∀ c ∈ a, isBlank c = true) ∧ (∀ c ∈ b, isBlank c = true)) ∧
    (∀ c, (trimmedText s).data.head? = some c → isBlank c = false) ∧
    (∀ c, (trimmedText s).data.getLast? = some c → isBlank c = false) := by
  have hstrip : ∀ l : List Char, stripLeading l = l.dropWhile isBlank := by
    intro l
    induction l with
    | nil => rfl
    | cons c cs ih =>
      rw [List.dropWhile_cons, stripLeading, ih]
  unfold trimmedText
  simp only [hstrip]
  refine ⟨⟨s.data.takeWhile isBlank,
    (((s.data.dropWhile isBlank).reverse).takeWhile isBlank).reverse, ?_, ?_, ?_⟩, ?_, ?_⟩
  · rw [List.append_assoc, ← List.reverse_append, List.takeWhile_append_dropWhile,
      List.reverse_reverse, List.takeWhile_append_dropWhile]
  · intro c hc
    exact List.mem_takeWhile_imp hc
  · intro c hc
    rw [List.mem_reverse] at hc
    exact List.mem_takeWhile_imp hc
  · intro c hc
    rw [List.head?_reverse] at hc
    have hsplit := List.takeWhile_append_dropWhile isBlank (s.data.dropWhile isBlank).reverse
    have hlast := congrArg List.getLast? hsplit
    rw [List.getLast?_append, hc, List.getLast?_reverse] at hlast
    have := List.head?_dropWhile_not isBlank s.data
    rw [← hlast] at this
    simpa using this
  · intro c hc
    rw [List.getLast?_reverse] at hc
    have := List.head?_dropWhile_not isBlank ((s.data.dropWhile isBlank).reverse)
    rw [hc] at this
    simpa using this

/-! ## The claims -/

/-- C1: for every string `p`, every instant and every host zone, `parsePINFL`
returns `birth`, `gender`, `daysLeft` either all null or all non-null, and all
non-null exactly when `p` is 14 decimal digits, its first digit is from 1 to 6,
and the year (century base plus digits 6-7), month (digits 4-5) and day (digits
2-3) form a real Gregorian date; month 0 or above 12, day 0, day 31 of a 30-day
month and 29 February of 1800 or 1900 are not real dates. -/
theorem parsePINFL_all_or_nothing (z : Zone) (now : Nat) (p : String) :
    (((parsePINFL z now p).birth = none ∧ (parsePINFL z now p).gender = none ∧
        (parsePINFL z now p).daysLeft = none) ∨
      ((parsePINFL z now p).birth ≠ none ∧ (parsePINFL z now p).gender ≠ none ∧
        (parsePINFL z now p).daysLeft ≠ none)) ∧
    (((parsePINFL z now p).birth ≠ none ∧ (parsePINFL z now p).gender ≠ none ∧
        (parsePINFL z now p).daysLeft ≠ none) ↔
      (p.data.length = 14 ∧ (∀ c ∈ p.data, c.isDigit = true) ∧
        (1 ≤ seriesDigit p ∧ seriesDigit p ≤ 6) ∧
        isGregorianDate (centuryBase (seriesDigit p) + yearField p) (monthField p)
          (dayField p))) ∧
    ((∀ y d, ¬ isGregorianDate y 0 d) ∧ (∀ y m d, 13 ≤ m → ¬ isGregorianDate y m d) ∧
      (∀ y m, ¬ isGregorianDate y m 0) ∧
      (∀ y m, m = 4 ∨ m = 6 ∨ m = 9 ∨ m = 11 → ¬ isGregorianDate y m 31) ∧
      ¬ isGregorianDate 1800 2 29 ∧ ¬ isGregorianDate 1900 2 29) := by
  refine ⟨?_, ?_, ?_⟩
  · rcases success_fields z now p with ⟨-, e1, e2, e3⟩ | ⟨-, e1, e2, e3⟩
    · right; rw [e1, e2, e3]; simp
    · left; exact ⟨e1, e2, e3⟩
  · rcases success_fields z now p with ⟨hv, e1, e2, e3⟩ | ⟨hv, e1, e2, e3⟩
    · rw [e1, e2, e3]
      constructor
      · intro _; exact hv
      · intro _; simp
    · rw [e1, e2, e3]
      constructor
      · intro hh; exact absurd rfl hh.1
      · intro hh; exact absurd hh hv
  · refine ⟨?_, ?_, ?_, ?_, by decide, by decide⟩
    · intro y d hh; have := hh.1; omega
    · intro y m d hm hh; have := hh.2.1; omega
    · intro y m hh; have := hh.2.2.1; omega
    · intro y m hm hh
      have h4 := hh.2.2.2
      unfold daysInMonth at h4
      rw [if_neg (by omega), if_pos hm] at h4
      omega

/-- C3: on a successful decode the gender is "Erkak" for the odd series digits
1, 3, 5 and "Ayol" for the even series digits 2, 4, 6; the two labels differ and
no other value is returned. -/
theorem gender_by_parity (z : Zone) (now : Nat) (p g : String)
    (h : (parsePINFL z now p).gender = some g) :
    ((seriesDigit p = 1 ∨ seriesDigit p = 3 ∨ seriesDigit p = 5) → g = "Erkak") ∧
    ((seriesDigit p = 2 ∨ seriesDigit p = 4 ∨ seriesDigit p = 6) → g = "Ayol") ∧
    (seriesDigit p % 2 = 1 ↔ g = "Erkak") ∧ (seriesDigit p % 2 = 0 ↔ g = "Ayol") ∧
    (g = "Erkak" ∨ g = "Ayol") ∧ "Erkak" ≠ "Ayol" := by
  have hne : "Erkak" ≠ "Ayol" := by decide
  rcases success_fields z now p with ⟨hv, -, e2, -⟩ | ⟨-, -, e2, -⟩
  · rw [e2] at h
    have hg := Option.some.inj h
    by_cases hodd : seriesDigit p % 2 = 1
    · rw [if_pos hodd] at hg
      subst hg
      refine ⟨fun _ => rfl, fun hh => by omega, ⟨fun _ => rfl, fun _ => hodd⟩,
        ⟨fun hh => by omega, fun hh => absurd hh hne⟩, Or.inl rfl, hne⟩
    · rw [if_neg hodd] at hg
      subst hg
      refine ⟨fun hh => by omega, fun _ => rfl, ⟨fun hh => absurd hh hodd,
        fun hh => absurd hh.symm hne⟩, ⟨fun _ => rfl, fun _ => by omega⟩, Or.inr rfl, hne⟩
  · rw [e2] at h
    exact absurd h (by simp)

theorem gender_by_parity_witness :
    (parsePINFL tashkent 0 "61003950000000").gender = some "Ayol" ∧
    (((seriesDigit "61003950000000" = 1 ∨ seriesDigit "61003950000000" = 3 ∨
        seriesDigit "61003950000000" = 5) → "Ayol" = "Erkak") ∧
    ((seriesDigit "61003950000000" = 2 ∨ seriesDigit "61003950000000" = 4 ∨
        seriesDigit "61003950000000" = 6) → "Ayol" = "Ayol") ∧
    (seriesDigit "61003950000000" % 2 = 1 ↔ "Ayol" = "Erkak") ∧
    (seriesDigit "61003950000000" % 2 = 0 ↔ "Ayol" = "Ayol") ∧
    ("Ayol" = "Erkak" ∨ "Ayol" = "Ayol") ∧ "Erkak" ≠ "Ayol") :=
  ⟨by decide, gender_by_parity tashkent 0 "61003950000000" "Ayol" (by decide)⟩

/-- C2: on a successful decode the birth string is the identifier's digits 2-3,
a dot, its digits 4-5, a dot, and the 4-digit decimal of the century base plus
the number in digits 6-7, the century base being 1800 for series digit 1 or 2,
1900 for 3 or 4 and 2000 for 5 or 6; it has 10 characters and is the same at
every instant. -/
theorem birth_format (z : Zone) (now : Nat) (p b : String)
    (h : (parsePINFL z now p).birth = some b) :
    b = digitsAt p 1 2 ++ "." ++ digitsAt p 3 2 ++ "." ++
        numToString (centuryBase (seriesDigit p) + yearField p) ∧
    (numToString (centuryBase (seriesDigit p) + yearField p)).length = 4 ∧
    ((seriesDigit p = 1 ∨ seriesDigit p = 2) → centuryBase (seriesDigit p) = 1800) ∧
    ((seriesDigit p = 3 ∨ seriesDigit p = 4) → centuryBase (seriesDigit p) = 1900) ∧
    ((seriesDigit p = 5 ∨ seriesDigit p = 6) → centuryBase (seriesDigit p) = 2000) ∧
    b.length = 10 ∧ ∀ now2 : Nat, (parsePINFL z now2 p).birth = some b := by
  rcases success_fields z now p with ⟨hv, e1, -, -⟩ | ⟨-, e1, -, -⟩
  · rw [e1] at h
    have hb := Option.some.inj h
    obtain ⟨f1, f2, f3⟩ := birthString_valid p hv
    unfold fullYearOf at f1 f2
    refine ⟨by rw [← hb]; exact f1, f2, ?_, ?_, ?_, by rw [← hb]; exact f3, ?_⟩
    · rintro (e | e) <;> rw [e] <;> rfl
    · rintro (e | e) <;> rw [e] <;> rfl
    · rintro (e | e) <;> rw [e] <;> rfl
    · intro now2
      rcases success_fields z now2 p with ⟨-, g1, -, -⟩ | ⟨hnv, -, -, -⟩
      · rw [g1, hb]
      · exact absurd hv hnv
  · rw [e1] at h
    exact absurd h (by simp)

theorem birth_format_witness :
    (parsePINFL tashkent 0 "11502010000000").birth = some "15.02.1801" ∧
    ("15.02.1801" = digitsAt "11502010000000" 1 2 ++ "." ++ digitsAt "11502010000000" 3 2 ++
        "." ++ numToString (centuryBase (seriesDigit "11502010000000") +
          yearField "11502010000000") ∧
    (numToString (centuryBase (seriesDigit "11502010000000") +
        yearField "11502010000000")).length = 4 ∧
    ((seriesDigit "11502010000000" = 1 ∨ seriesDigit "11502010000000" = 2) →
      centuryBase (seriesDigit "11502010000000") = 1800) ∧
    ((seriesDigit "11502010000000" = 3 ∨ seriesDigit "11502010000000" = 4) →
      centuryBase (seriesDigit "11502010000000") = 1900) ∧
    ((seriesDigit "11502010000000" = 5 ∨ seriesDigit "11502010000000" = 6) →
      centuryBase (seriesDigit "11502010000000") = 2000) ∧
    "15.02.1801".length = 10 ∧
    ∀ now2 : Nat, (parsePINFL tashkent now2 "11502010000000").birth = some "15.02.1801") :=
  ⟨by decide, birth_format tashkent 0 "11502010000000" "15.02.1801" (by decide)⟩

/-- C4: on a Tashkent host at noon of 15 June 2024 the identifier
"51506950000000", whose birthday is 15 June, decodes with `daysLeft = 365`, not
0; at the midnight that starts that day it decodes with `daysLeft = 0`. -/
theorem birthday_noon_countdown :
    (todayOf tashkent 1718434800000).2 =
      (monthField "51506950000000", dayField "51506950000000") ∧
    (parsePINFL tashkent 1718434800000 "51506950000000").daysLeft = some (JSNum.int 365) ∧
    (parsePINFL tashkent 1718391600000 "51506950000000").daysLeft = some (JSNum.int 0) := by
  decide

/-- C5 (amended): on a successful decode, when the host's UTC offset at the
current instant is also its offset at the local midnights of this year's and
next year's birthday and the instant lies at least 366 days before the end of
the range of `Date`, `daysLeft` is an integer between 0 and 366. -/
theorem daysLeft_range (z : Zone) (now : Nat) (p : String) (x : JSNum)
    (h : (parsePINFL z now p).daysLeft = some x)
    (hs : steadyOffset z now (monthField p) (dayField p))
    (hr : (now : Int) + 366 * msPerDay ≤ maxTime) :
    ∃ n : Int, x = JSNum.int n ∧ 0 ≤ n ∧ n ≤ 366 := by
  rcases success_fields z now p with ⟨hv, -, -, e3⟩ | ⟨-, -, -, e3⟩
  · rw [e3] at h
    have hx := Option.some.inj h
    obtain ⟨hm1, hm2, hd1, hd2⟩ := valid_day_bound p hv
    rw [diffDays_steady z now _ _ hm1 hm2 hd1 hd2 hs hr] at hx
    exact ⟨_, hx.symm, localCountdown_range _ _ _ hm1 hm2 hd1 hd2⟩
  · rw [e3] at h
    exact absurd h (by simp)

theorem daysLeft_range_witness :
    ((parsePINFL tashkent 1709146800001 "52902000000000").daysLeft = some (JSNum.int 366) ∧
      steadyOffset tashkent 1709146800001 (monthField "52902000000000")
        (dayField "52902000000000") ∧
      ((1709146800001 : Nat) : Int) + 366 * msPerDay ≤ maxTime) ∧
    ∃ n : Int, JSNum.int 366 = JSNum.int n ∧ 0 ≤ n ∧ n ≤ 366 :=
  ⟨⟨by decide, by decide, by decide⟩,
    daysLeft_range tashkent 1709146800001 "52902000000000" (JSNum.int 366) (by decide)
      (by decide) (by decide)⟩

/-- C5 as stated fails: on a New York host at 2023-11-04 00:00:00.001 local
time the identifier "50411000000000", whose birthday is 4 November, decodes
with `daysLeft = 367`; and at the last instant of the range of `Date` the
countdown is `NaN`. -/
theorem daysLeft_above_range :
    (parsePINFL newYork 1699070400001 "50411000000000").daysLeft = some (JSNum.int 367) ∧
    ¬ ((0 : Int) ≤ 367 ∧ (367 : Int) ≤ 366) ∧
    (parsePINFL tashkent 8640000000000000 "51506950000000").daysLeft = some JSNum.nan := by
  decide

/-- C8: the normalisation returns decimal digits only, of length `max 14 d` for
the `d` digits of the input; its last `d` characters are the digits of the input
in order and all characters before them are '0'; it leaves a string of exactly
14 digits unchanged, and gives the same result for a string and for its digits
alone. -/
theorem normalize_spec (c : String) :
    (∀ ch ∈ (normalize c).data, ch.isDigit = true) ∧
    (normalize c).data.length = max 14 (digitsOf c).length ∧
    (normalize c).data.drop ((normalize c).data.length - (digitsOf c).length) = digitsOf c ∧
    (∀ ch ∈ (normalize c).data.take ((normalize c).data.length - (digitsOf c).length),
      ch = '0') ∧
    (normalize c).data = List.replicate (14 - (digitsOf c).length) '0' ++ digitsOf c ∧
    (isPinflShape c = true → normalize c = c) ∧
    normalize ⟨digitsOf c⟩ = normalize c := by
  have hd := normalize_data c
  have hlen : (normalize c).data.length - (digitsOf c).length = 14 - (digitsOf c).length := by
    rw [hd, List.length_append, List.length_replicate]
    omega
  refine ⟨?_, ?_, ?_, ?_, hd, ?_, ?_⟩
  · intro ch hch
    rw [hd, List.mem_append] at hch
    rcases hch with h | h
    · rw [(List.mem_replicate.1 h).2]; rfl
    · exact (List.mem_filter.1 h).2
  · rw [hd, List.length_append, List.length_replicate]
    omega
  · rw [hlen, hd, List.drop_left' (by simp)]
  · intro ch hch
    rw [hlen, hd, List.take_left' (by simp)] at hch
    exact (List.mem_replicate.1 hch).2
  · intro hs
    obtain ⟨h14, hdig⟩ := (isPinflShape_iff c).1 hs
    have hf : digitsOf c = c.data := by
      unfold digitsOf
      exact List.filter_eq_self.2 hdig
    have : (normalize c).data = c.data := by
      rw [hd, hf, h14]
      rfl
    exact String.ext this
  · apply String.ext
    rw [normalize_data, hd]
    have : digitsOf ⟨digitsOf c⟩ = digitsOf c := by
      unfold digitsOf
      simp
    rw [this]


/-- C6: `processWorkbook` emits, in the rows' order, exactly one record for each
row whose first cell is non-empty after trimming, whether or not it decodes; the
record holds the normalised cell, and either the three decoded values (a
`daysLeft` of 0 stays the number 0) or, exactly when decoding fails, the three
placeholders "Invalid", "Unknown", "N/A".  The first cell is the head of the
row, trimming removes the blank prefix and suffix, and the normalised cell is
its digits behind the zeros that fill 14 places. -/
theorem processWorkbook_records (z : Zone) (clock : Nat → Nat) (json : List Row) :
    processWorkbook z clock json =
      (json.enum.filter (fun ir => !(cellOf ir.2).data.isEmpty)).map
        (fun ir => expectedRecord z (clock ir.1) (cellOf ir.2)) ∧
    (cellOf none = "" ∧ cellOf (some []) = "" ∧
      ∀ (c : String) (rest : List String), cellOf (some (c :: rest)) = trimmedText c) ∧
    (∀ s : String,
      (∃ a b : List Char, s.data = a ++ (trimmedText s).data ++ b ∧
        (∀ c ∈ a, isBlank c = true) ∧ (∀ c ∈ b, isBlank c = true)) ∧
      (∀ c, (trimmedText s).data.head? = some c → isBlank c = false) ∧
      (∀ c, (trimmedText s).data.getLast? = some c → isBlank c = false)) ∧
    (∀ (now : Nat) (cell : String),
      (expectedRecord z now cell).PINFL = normalForm cell ∧
      (normalForm cell).data =
        List.replicate (14 - (digitsOf cell).length) '0' ++ digitsOf cell ∧
      (parsePINFL z now (normalForm cell) = Info.failed ∨
        ∃ b g n, parsePINFL z now (normalForm cell) =
          { birth := some b, gender := some g, daysLeft := some n }) ∧
      (∀ b g n, parsePINFL z now (normalForm cell) =
          { birth := some b, gender := some g, daysLeft := some n } →
        expectedRecord z now cell =
          { PINFL := normalForm cell, Birthdate := b, Gender := g, DaysLeft := Cell.num n } ∧
        b ≠ "Invalid" ∧ g ≠ "Unknown") ∧
      (parsePINFL z now (normalForm cell) = Info.failed ↔
        ((expectedRecord z now cell).Birthdate = "Invalid" ∧
          (expectedRecord z now cell).Gender = "Unknown" ∧
          (expectedRecord z now cell).DaysLeft = Cell.str "N/A")) ∧
      ((expectedRecord z now cell).Birthdate = "Invalid" ↔
        parsePINFL z now (normalForm cell) = Info.failed) ∧
      ((expectedRecord z now cell).Gender = "Unknown" ↔
        parsePINFL z now (normalForm cell) = Info.failed) ∧
      ((expectedRecord z now cell).DaysLeft = Cell.str "N/A" ↔
        parsePINFL z now (normalForm cell) = Info.failed)) := by
  refine ⟨?_, ⟨by decide, by decide, fun _ _ => rfl⟩, trimmedText_spec, ?_⟩
  · unfold processWorkbook
    rw [processLoop_eq]
    rfl
  · intro now cell
    rcases parsePINFL_closed z now (normalForm cell) with ⟨hv, e⟩ | ⟨-, e⟩
    · obtain ⟨-, -, f3⟩ := birthString_valid _ hv
      have hb : birthString (dayField (normalForm cell)) (monthField (normalForm cell))
          (fullYearOf (normalForm cell)) ≠ "Invalid" := by
        intro hh
        rw [hh] at f3
        exact absurd f3 (by decide)
      have hg : (if seriesDigit (normalForm cell) % 2 = 1 then "Erkak" else "Ayol") ≠
          "Unknown" := by
        split_ifs <;> decide
      have hne : parsePINFL z now (normalForm cell) ≠ Info.failed := by
        rw [e]; unfold decoded Info.failed; simp
      have hrec : expectedRecord z now cell =
          { PINFL := normalForm cell
            Birthdate := birthString (dayField (normalForm cell))
              (monthField (normalForm cell)) (fullYearOf (normalForm cell))
            Gender := if seriesDigit (normalForm cell) % 2 = 1 then "Erkak" else "Ayol"
            DaysLeft := Cell.num (diffDays z now (monthField (normalForm cell))
              (dayField (normalForm cell))) } := by
        unfold expectedRecord
        rw [e]
        rfl
      refine ⟨by rw [hrec], rfl, Or.inr ⟨_, _, _, e⟩, ?_, ?_, ?_, ?_, ?_⟩
      · intro b g n hbgn
        rw [e] at hbgn
        unfold decoded at hbgn
        simp only [Info.mk.injEq, Option.some.injEq] at hbgn
        obtain ⟨rfl, rfl, rfl⟩ := hbgn
        exact ⟨hrec, hb, hg⟩
      · rw [hrec]
        exact ⟨fun hh => absurd hh hne, fun hh => absurd hh.1 hb⟩
      · rw [hrec]
        exact ⟨fun hh => absurd hh hb, fun hh => absurd hh hne⟩
      · rw [hrec]
        exact ⟨fun hh => absurd hh hg, fun hh => absurd hh hne⟩
      · rw [hrec]
        exact ⟨fun hh => by simp at hh, fun hh => absurd hh hne⟩
    · have hrec : expectedRecord z now cell =
          { PINFL := normalForm cell, Birthdate := "Invalid", Gender := "Unknown",
            DaysLeft := Cell.str "N/A" } := by
        unfold expectedRecord
        rw [e]
        rfl
      refine ⟨by rw [hrec], rfl, Or.inl e, ?_, ?_, ?_, ?_, ?_⟩
      · intro b g n hbgn
        rw [e] at hbgn
        unfold Info.failed at hbgn
        simp at hbgn
      · rw [hrec]
        exact ⟨fun _ => ⟨rfl, rfl, rfl⟩, fun _ => e⟩
      · rw [hrec]
        exact ⟨fun _ => e, fun _ => rfl⟩
      · rw [hrec]
        exact ⟨fun _ => e, fun _ => rfl⟩
      · rw [hrec]
        exact ⟨fun _ => e, fun _ => rfl⟩

/-- C7 (amended): a row whose first cell has no decimal digit is skipped exactly
when that cell is empty after trimming; otherwise it yields one record, with
PINFL "00000000000000" and the placeholders "Invalid", "Unknown", "N/A". -/
theorem digitless_row (z : Zone) (clock : Nat → Nat) (pre post : List Row) (cell : String)
    (rest : List String) (hnd : ∀ ch ∈ cell.data, ch.isDigit = false) :
    processWorkbook z clock (pre ++ some (cell :: rest) :: post) =
      processWorkbook z clock pre ++
        (if (trim cell).data = [] then [] else [blankRecord]) ++
        processLoop z clock (pre.length + 1) post [] := by
  unfold processWorkbook
  rw [processLoop_eq, processLoop_eq, processLoop_eq, List.enumFrom_append,
    List.enumFrom_cons]
  have hc : cellOf (some (cell :: rest)) = trim cell := by
    rw [trim_eq_trimmedText]; rfl
  by_cases he : (trim cell).data = []
  · rw [if_pos he]
    simp [hc, he]
  · rw [if_neg he]
    simp [hc, he, expectedRecord_digitless _ _ _ hnd]

theorem digitless_row_witness :
    (∀ ch ∈ "abc".data, ch.isDigit = false) ∧
    processWorkbook tashkent (fun _ => 0) ([] ++ some ("abc" :: []) :: []) =
      processWorkbook tashkent (fun _ => 0) [] ++
        (if (trim "abc").data = [] then [] else [blankRecord]) ++
        processLoop tashkent (fun _ => 0) (([] : List Row).length + 1) [] [] :=
  ⟨by decide, digitless_row tashkent (fun _ => 0) [] [] "abc" [] (by decide)⟩

/-- C7 as stated fails: the row whose first cell is "abc" has no digit and yet
`processWorkbook` emits a record for it. -/
theorem digitless_row_emitted :
    (∀ ch ∈ "abc".data, ch.isDigit = false) ∧
    processWorkbook tashkent (fun _ => 0) [some ["abc"]] = [blankRecord] ∧
    processWorkbook tashkent (fun _ => 0) [some ["abc"]] ≠ [] := by
  decide

theorem fields_of_start (p : String) (hp : isPinflShape p = true)
    (hpre : digitsAt p 0 7 = "5100395") :
    seriesDigit p = 5 ∧ dayField p = 10 ∧ monthField p = 3 ∧ yearField p = 95 := by
  obtain ⟨hlen, -⟩ := (isPinflShape_iff p).1 hp
  obtain ⟨l⟩ := p
  obtain ⟨c0, c1, c2, c3, c4, c5, c6, c7, c8, c9, c10, c11, c12, c13, rfl⟩ := length14 l hlen
  have h := congrArg String.data hpre
  simp only [digitsAt, List.drop, List.take] at h
  have h2 : [c0, c1, c2, c3, c4, c5, c6] = ['5', '1', '0', '0', '3', '9', '5'] := h
  simp only [List.cons.injEq, and_true] at h2
  obtain ⟨rfl, rfl, rfl, rfl, rfl, rfl, rfl⟩ := h2
  exact ⟨rfl, rfl, rfl, rfl⟩

theorem june_arith (now off oB tl : Int) (h1 : -86400000 < oB) (h2 : off < 86400000)
    (htl : tl = now + off) (hday : tl / 86400000 = 19889) :
    ¬ (19792 * 86400000 - oB ≥ now) ∧
      -((-(20157 * 86400000 - off - now)) / 86400000) = 268 := by
  constructor <;> omega

theorem june15_countdown (z : Zone) (now : Nat) (h : todayOf z now = (2024, 6, 15))
    (ho : z.LocalTZA (localMidnight 2025 3 10) false = z.LocalTZA now true) :
    diffDays z now 3 10 = JSNum.int 268 ∧ target z now 3 10 = newDate z 2025 2 10 := by
  have hY := year_of_now z now
  have hD := dayNumber_civil (LocalTime z now) hY
  have hy1 := congrArg Prod.fst h
  have hY2 : YearFromTime (LocalTime z now) = 2024 := by
    simp only [todayOf, civilDate] at hy1
    omega
  have hD2 : Day (LocalTime z now) = 19889 := by
    have e : dayNumber (civilDate (LocalTime z now)) = 20254 := by
      show dayNumber (todayOf z now) = 20254
      rw [h]; decide
    omega
  have hlm : localMidnight 2025 3 10 = MakeDate 20157 0 := by decide
  rw [hlm] at ho
  have hoB := z.offset_lt (MakeDate 19792 0) false
  have hoU := z.offset_lt now true
  rw [msPerDay_eq] at hoB hoU
  have eB : newDate z 2024 2 10 = some (UTC z (MakeDate 19792 0)) :=
    newDate_valid z 2024 2 10 (by decide) (by decide) (by decide)
  have eN : newDate z 2025 2 10 = some (UTC z (MakeDate 20157 0)) :=
    newDate_valid z 2025 2 10 (by decide) (by decide) (by decide)
  have hL : LocalTime z now = (now : Int) + z.LocalTZA now true := rfl
  have hDay : ((now : Int) + z.LocalTZA now true) / 86400000 = 19889 := by
    rw [← hL]; exact hD2
  obtain ⟨q1, q2⟩ := june_arith now (z.LocalTZA now true) (z.LocalTZA (MakeDate 19792 0) false)
    _ hoB.1 hoU.2 rfl hDay
  have hUB : UTC z (MakeDate 19792 0) =
      19792 * 86400000 - z.LocalTZA (MakeDate 19792 0) false := by
    unfold UTC
    have : MakeDate 19792 0 = 19792 * 86400000 := by decide
    omega
  have hUN : UTC z (MakeDate 20157 0) = 20157 * 86400000 - z.LocalTZA now true := by
    unfold UTC
    rw [ho]
    have : MakeDate 20157 0 = 20157 * 86400000 := by decide
    omega
  have ht : target z now 3 10 = newDate z 2025 2 10 := by
    unfold target thisYearBirthday getFullYear
    rw [hY2]
    have c1 : (((3 : Nat) : Int) - 1) = 2 := by norm_num
    have c2 : ((10 : Nat) : Int) = 10 := by norm_num
    have c3 : (2024 : Int) + 1 = 2025 := by norm_num
    rw [c1, c2, c3, eB]
    simp only
    rw [hUB, if_neg q1]
  refine ⟨?_, ht⟩
  unfold diffDays
  rw [ht, eN]
  simp only
  rw [hUN]
  unfold ceilDiv
  have c4 : (1000 * 60 * 60 * 24 : Int) = 86400000 := by norm_num
  rw [c4, q2]

/-- C9 (amended): on 2024-06-15, at any time of day, on a host whose UTC offset
at that instant is also its offset at the local midnight of 2025-03-10, every
14-digit identifier that starts with series digit 5, day 10, month 03, year 95
decodes with century base 2000 to the birth string "10.03.2095", the gender
"Erkak" (the male label) and `daysLeft = 268`, the target being 2025-03-10. -/
theorem example_decode (z : Zone) (now : Nat) (p : String)
    (hnow : todayOf z now = (2024, 6, 15))
    (ho : z.LocalTZA (localMidnight 2025 3 10) false = z.LocalTZA now true)
    (hp : isPinflShape p = true) (hpre : digitsAt p 0 7 = "5100395") :
    century (seriesDigit p) = some 2000 ∧
    parsePINFL z now p =
      { birth := some "10.03.2095", gender := some "Erkak",
        daysLeft := some (JSNum.int 268) } ∧
    target z now (monthField p) (dayField p) = newDate z 2025 2 10 ∧
    (∃ t, newDate z 2025 2 10 = some t ∧ getFullYear z t = 2025 ∧ getMonth z t = 2 ∧
      getDate z t = 10) := by
  obtain ⟨f0, f1, f2, f3⟩ := fields_of_start p hp hpre
  obtain ⟨hd, ht⟩ := june15_countdown z now hnow ho
  have hfy : fullYearOf p = 2095 := by unfold fullYearOf; rw [f0, f3]; rfl
  refine ⟨by rw [f0]; rfl, ?_, by rw [f1, f2]; exact ht, ?_⟩
  · rw [parsePINFL_shape z now p hp, f0, f1, f2, hfy, if_pos (by decide)]
    unfold decoded
    rw [f0, f1, f2, hfy, hd]
    rfl
  · have hc := (newDate_check_iff z 2025 3 10 (by decide) (by decide) (by decide)).2
      (by decide)
    obtain ⟨t, e0, e1, e2, e3⟩ := hc
    refine ⟨t, ?_, ?_, ?_, ?_⟩
    · simpa using e0
    · simpa using e1
    · simpa using e2
    · simpa using e3

theorem example_decode_witness :
    (todayOf tashkent 1718434800000 = (2024, 6, 15) ∧
      tashkent.LocalTZA (localMidnight 2025 3 10) false =
        tashkent.LocalTZA ((1718434800000 : Nat) : Int) true ∧
      isPinflShape "51003950000000" = true ∧
      digitsAt "51003950000000" 0 7 = "5100395") ∧
    (century (seriesDigit "51003950000000") = some 2000 ∧
    parsePINFL tashkent 1718434800000 "51003950000000" =
      { birth := some "10.03.2095", gender := some "Erkak",
        daysLeft := some (JSNum.int 268) } ∧
    target tashkent 1718434800000 (monthField "51003950000000")
      (dayField "51003950000000") = newDate tashkent 2025 2 10 ∧
    (∃ t, newDate tashkent 2025 2 10 = some t ∧ getFullYear tashkent t = 2025 ∧
      getMonth tashkent t = 2 ∧ getDate tashkent t = 10)) :=
  ⟨⟨by decide, by decide, by decide, by decide⟩,
    example_decode tashkent 1718434800000 "51003950000000" (by decide) (by decide)
      (by decide) (by decide)⟩

/-- C9 as stated fails: on 2024-06-15 on a Tashkent host the identifier
"51003950000000" does not decode to birth "10.03.1995" with the female label
"Ayol"; and on a Berlin host at the midnight that starts 2024-06-15 its
`daysLeft` is 269, not 268. -/
theorem example_as_stated_fails :
    (todayOf tashkent 1718434800000 = (2024, 6, 15) ∧ isPinflShape "51003950000000" = true ∧
      digitsAt "51003950000000" 0 7 = "5100395" ∧
      ¬ ((parsePINFL tashkent 1718434800000 "51003950000000").birth = some "10.03.1995" ∧
        (parsePINFL tashkent 1718434800000 "51003950000000").gender = some "Ayol" ∧
        (parsePINFL tashkent 1718434800000 "51003950000000").daysLeft =
          some (JSNum.int 268))) ∧
    (todayOf berlin 1718402400000 = (2024, 6, 15) ∧
      (parsePINFL berlin 1718402400000 "51003950000000").daysLeft = some (JSNum.int 269)) := by
  decide

/-- C10 (amended): on a successful decode, at an instant whose date is not this
year's occurrence of the birthday (29 February rolled to 1 March in a non-leap
year), when the host's UTC offset at that instant is also its offset at the
local midnights of this year's and next year's birthday and the instant lies at
least 366 days before the end of the range of `Date`, `daysLeft` is the number
of calendar days from today's date to the next occurrence of the birthday; it
is the same at every such instant of that date, and it is 1 when tomorrow's
month and day are the birthday's. -/
theorem daysLeft_calendar_days (z : Zone) (now : Nat) (p : String) (x : JSNum)
    (h : (parsePINFL z now p).daysLeft = some x)
    (hne : todayOf z now ≠ rollForward (todayOf z now).1 (monthField p) (dayField p))
    (hs : steadyOffset z now (monthField p) (dayField p))
    (hr : (now : Int) + 366 * msPerDay ≤ maxTime) :
    x = JSNum.int (daysBetween (todayOf z now)
        (nextOccurrence (todayOf z now) (monthField p) (dayField p))) ∧
    (∀ now2 : Nat, todayOf z now2 = todayOf z now →
      steadyOffset z now2 (monthField p) (dayField p) →
      (now2 : Int) + 366 * msPerDay ≤ maxTime → (parsePINFL z now2 p).daysLeft = some x) ∧
    ((tomorrowOf z now).2 = (monthField p, dayField p) → x = JSNum.int 1) ∧
    dayNumber (todayOf z now) = Day (LocalTime z now) + 365 := by
  rcases success_fields z now p with ⟨hv, -, -, e3⟩ | ⟨-, -, -, e3⟩
  swap
  · rw [e3] at h
    exact absurd h (by simp)
  rw [e3] at h
  have hx := Option.some.inj h
  obtain ⟨hm1, hm2, hd1, hd2⟩ := valid_day_bound p hv
  rw [diffDays_steady z now _ _ hm1 hm2 hd1 hd2 hs hr] at hx
  have hY := year_of_now z now
  obtain ⟨cB, cN, cT⟩ := countdown_days (LocalTime z now) _ _ hY hm1 hm2 hd1 hd2
  have hTB : Day (LocalTime z now) ≠
      MakeDay (YearFromTime (LocalTime z now)) ((monthField p : Int) - 1) (dayField p) :=
    fun hh => hne (cT hh)
  have hoff := localCountdown_offday (LocalTime z now) _ _ hTB
  have hT := dayNumber_civil (LocalTime z now) hY
  refine ⟨?_, ?_, ?_, hT⟩
  · rw [← hx, hoff]
    congr 1
    unfold daysBetween nextOccurrence todayOf
    rw [hT, ← cB]
    by_cases hc : Day (LocalTime z now) ≤
        MakeDay (YearFromTime (LocalTime z now)) ((monthField p : Int) - 1) (dayField p)
    · rw [if_pos hc, if_pos (by omega), ← cB]
      omega
    · rw [if_neg hc, if_neg (by omega), ← cN]
      omega
  · intro now2 h2 hs2 hr2
    rcases success_fields z now2 p with ⟨-, -, -, g3⟩ | ⟨hnv, -, -, -⟩
    swap
    · exact absurd hv hnv
    rw [g3, diffDays_steady z now2 _ _ hm1 hm2 hd1 hd2 hs2 hr2, ← hx]
    have hY2 := year_of_now z now2
    obtain ⟨hy, hd⟩ := year_eq_of_civil (LocalTime z now) (LocalTime z now2) hY hY2 h2
    have hoff2 := localCountdown_offday (LocalTime z now2) (monthField p) (dayField p)
      (by rw [hy, hd]; exact hTB)
    rw [hoff2, hoff, hy, hd]
  · intro htom
    obtain ⟨hmth, hdte⟩ := month_date_of_civil _ _ _ htom
    rw [← hx, localCountdown_tomorrow _ _ _ hm1 hm2 hd1 hd2 hmth hdte]

theorem daysLeft_calendar_days_witness :
    ((parsePINFL tashkent 1718434800000 "51003950000000").daysLeft = some (JSNum.int 268) ∧
      todayOf tashkent 1718434800000 ≠ rollForward (todayOf tashkent 1718434800000).1
        (monthField "51003950000000") (dayField "51003950000000") ∧
      steadyOffset tashkent 1718434800000 (monthField "51003950000000")
        (dayField "51003950000000") ∧
      ((1718434800000 : Nat) : Int) + 366 * msPerDay ≤ maxTime) ∧
    (JSNum.int 268 = JSNum.int (daysBetween (todayOf tashkent 1718434800000)
        (nextOccurrence (todayOf tashkent 1718434800000) (monthField "51003950000000")
          (dayField "51003950000000"))) ∧
    (∀ now2 : Nat, todayOf tashkent now2 = todayOf tashkent 1718434800000 →
      steadyOffset tashkent now2 (monthField "51003950000000")
        (dayField "51003950000000") →
      (now2 : Int) + 366 * msPerDay ≤ maxTime →
      (parsePINFL tashkent now2 "51003950000000").daysLeft = some (JSNum.int 268)) ∧
    ((tomorrowOf tashkent 1718434800000).2 =
      (monthField "51003950000000", dayField "51003950000000") →
        JSNum.int 268 = JSNum.int 1) ∧
    dayNumber (todayOf tashkent 1718434800000) =
      Day (LocalTime tashkent ((1718434800000 : Nat) : Int)) + 365) :=
  ⟨⟨by decide, by decide, by decide, by decide⟩,
    daysLeft_calendar_days tashkent 1718434800000 "51003950000000" (JSNum.int 268)
      (by decide) (by decide) (by decide) (by decide)⟩

/-- C10 as stated fails: on a New York host at 2024-03-09 23:30 local time the
identifier "51103000000000", whose birthday 11 March is two calendar days
ahead, decodes with `daysLeft = 1`; and on a Berlin host at the midnight that
starts 2024-10-27 the identifier "52810000000000", whose birthday is tomorrow,
decodes with `daysLeft = 2`. -/
theorem daysLeft_off_by_one :
    (todayOf newYork 1710045000000 = (2024, 3, 9) ∧
      todayOf newYork 1710045000000 ≠ rollForward (todayOf newYork 1710045000000).1
        (monthField "51103000000000") (dayField "51103000000000") ∧
      daysBetween (todayOf newYork 1710045000000)
        (nextOccurrence (todayOf newYork 1710045000000) (monthField "51103000000000")
          (dayField "51103000000000")) = 2 ∧
      (parsePINFL newYork 1710045000000 "51103000000000").daysLeft = some (JSNum.int 1)) ∧
    (todayOf berlin 1729980000000 = (2024, 10, 27) ∧
      (tomorrowOf berlin 1729980000000).2 =
        (monthField "52810000000000", dayField "52810000000000") ∧
      (parsePINFL berlin 1729980000000 "52810000000000").daysLeft = some (JSNum.int 2)) := by
  decide

end PINFL
